import Mathlib

/-!
Verification of the match-statistics aggregation engine and the
strategy-backtest / martingale simulator of the repository.

The Python sources `generate_cs_matrix.py` and `run_wr_pct_strategy.py` are
shallowly embedded below: pure numeric code is translated to functions on
`ℕ`, `ℤ` and `ℚ` (Python floats are modelled by exact rationals), mutable
accumulator arrays become functions updated pointwise, and control flow that
drops a record becomes an `Option` / skip counter.
-/

namespace CsMatrix

/-- Round half to even on an exact rational, the rounding used by Python's
`round()` builtin and by `format` with a fixed number of decimals. -/
def rhe (q : ℚ) : ℤ :=
  let f := ⌊q⌋
  let r := q - (f : ℚ)
  if r < 1/2 then f
  else if 1/2 < r then f + 1
  else if f % 2 = 0 then f else f + 1

/-- Python's `round(q, n)`: round half to even at `n` decimal places. -/
def pyRoundTo (n : ℕ) (q : ℚ) : ℚ :=
  (rhe (q * (10 : ℚ) ^ n) : ℚ) / (10 : ℚ) ^ n

/-- Zero-padded rendering of a natural number below 10000 to 4 digits,
used for the fractional part of `%.4f` formatting. -/
def pad4 (k : ℕ) : String :=
  if k < 10 then "000" ++ toString k
  else if k < 100 then "00" ++ toString k
  else if k < 1000 then "0" ++ toString k
  else toString k

/-- Model of Python's `f"{x:.4f}"` applied to the exact rational value:
round half to even at the fourth decimal and render with a sign taken from
the unrounded value (Python keeps the sign of a negative value that rounds
to zero, e.g. `-0.0000`). -/
def pyFormat4 (q : ℚ) : String :=
  let n := (rhe (q * 10000)).natAbs
  (if q < 0 then "-" else "") ++ toString (n / 10000) ++ "." ++ pad4 (n % 10000)

lemma rhe_eq_low (q : ℚ) (f : ℤ) (h1 : (f : ℚ) ≤ q) (h2 : q < (f : ℚ) + 1/2) :
    rhe q = f := by
  have hf : ⌊q⌋ = f := Int.floor_eq_iff.mpr ⟨h1, by linarith⟩
  unfold rhe
  simp only [hf]
  rw [if_pos (by linarith)]

lemma rhe_eq_high (q : ℚ) (f : ℤ) (h1 : (f : ℚ) + 1/2 < q) (h2 : q < (f : ℚ) + 1) :
    rhe q = f + 1 := by
  have hf : ⌊q⌋ = f := Int.floor_eq_iff.mpr ⟨by linarith, h2⟩
  unfold rhe
  simp only [hf]
  rw [if_neg (by linarith), if_pos (by linarith)]

lemma rhe_eq_half (q : ℚ) (f : ℤ) (h : q = (f : ℚ) + 1/2) :
    rhe q = if f % 2 = 0 then f else f + 1 := by
  have hf : ⌊q⌋ = f := Int.floor_eq_iff.mpr ⟨by rw [h]; linarith, by rw [h]; linarith⟩
  unfold rhe
  simp only [hf]
  rw [if_neg (by rw [h]; linarith), if_neg (by rw [h]; linarith)]

/-- Round-half-even commutes with negation (both halves round towards the
same even integer). -/
lemma rhe_neg (q : ℚ) : rhe (-q) = - rhe q := by
  have hq : (⌊q⌋ : ℚ) + Int.fract q = q := Int.floor_add_fract q
  rcases eq_or_ne (Int.fract q) 0 with h0 | h0
  · -- `q` is an integer
    rw [h0, add_zero] at hq
    rw [rhe_eq_low q ⌊q⌋ (le_of_eq hq) (by linarith),
        rhe_eq_low (-q) (-⌊q⌋) (by push_cast; linarith) (by push_cast; linarith)]
  · have hfr0 : 0 < Int.fract q := lt_of_le_of_ne (Int.fract_nonneg q) (Ne.symm h0)
    have hfr1 : Int.fract q < 1 := Int.fract_lt_one q
    rcases lt_trichotomy (Int.fract q) (1/2) with hlt | heq | hgt
    · rw [rhe_eq_low q ⌊q⌋ (Int.floor_le q) (by linarith),
          rhe_eq_high (-q) (-⌊q⌋ - 1) (by push_cast; linarith) (by push_cast; linarith)]
      ring
    · rw [rhe_eq_half q ⌊q⌋ (by linarith),
          rhe_eq_half (-q) (-⌊q⌋ - 1) (by push_cast; linarith)]
      split_ifs <;> omega
    · rw [rhe_eq_high q ⌊q⌋ (by linarith) (by linarith),
          rhe_eq_low (-q) (-⌊q⌋ - 1) (by push_cast; linarith) (by push_cast; linarith)]
      ring

example : rhe (1/2) = 0 := by
  rw [rhe_eq_half (1/2) 0 (by norm_num)]; decide
example : rhe (3/2) = 2 := by
  rw [rhe_eq_half (3/2) 1 (by norm_num)]; decide
example : rhe (667/10) = 67 := by
  rw [rhe_eq_high (667/10) 66 (by norm_num) (by norm_num)]; decide
example : rhe 1050 = 1050 := by
  rw [rhe_eq_low 1050 1050 (by norm_num) (by norm_num)]
example : pyFormat4 (50/3) = "16.6667" := by
  rw [pyFormat4, rhe_eq_high (50/3 * 10000) 166666 (by norm_num) (by norm_num)]
  rw [if_neg (by norm_num)]
  decide
example : pyFormat4 (-50/3) = "-16.6667" := by
  rw [pyFormat4, rhe_eq_low (-50/3 * 10000) (-166667) (by norm_num) (by norm_num)]
  rw [if_pos (by norm_num)]
  decide

/-! ## Match ingestion (`process_matches` in `generate_cs_matrix.py`)

A raw match record is modelled after JSON parsing: team names and the winner
are `Option String` (`none` when the key is missing), players carry an
optional hero id and an optional team name.  The per-hero metric and
duration accumulators of the Python function are omitted from the embedding:
no claim mentions them and they do not influence the counters below. -/

/-- One entry of a raw match record's `players` list. -/
structure PlayerEntry where
  hero_id : Option ℤ
  player_team : Option String
deriving DecidableEq

/-- One raw match record (line of the newline-delimited matches file). -/
structure MatchRecord where
  radiant_team : Option String
  dire_team : Option String
  winner : Option String
  players : List PlayerEntry
deriving DecidableEq

/-- The hero-id → matrix-index mapping (`hero_id_map.json`), as an
association list; `.get` of the Python dict is `List.lookup`. -/
abbrev HeroMap := List (ℤ × ℕ)

/-- The winning side of a record. -/
inductive Side | radiant | dire
deriving DecidableEq

/-- Accumulator state of `process_matches`: per-hero and per-pair counters
(Python lists indexed by hero index, modelled as total functions) plus the
processed/skipped diagnostics. -/
structure IngestState where
  hero_matches : ℕ → ℕ
  hero_wins : ℕ → ℕ
  pair_matches : ℕ → ℕ → ℕ
  pair_wins : ℕ → ℕ → ℕ
  total : ℕ
  skipped : ℕ

def initIngest : IngestState :=
  ⟨fun _ => 0, fun _ => 0, fun _ _ => 0, fun _ _ => 0, 0, 0⟩

/-- `f` with the single cell `(a, b)` incremented (`pair[a][b] += 1`). -/
def incPair (f : ℕ → ℕ → ℕ) (a b : ℕ) : ℕ → ℕ → ℕ :=
  fun i j => if i = a ∧ j = b then f i j + 1 else f i j

/-- `f` with the single cell `a` incremented (`arr[a] += 1`). -/
def incOne (f : ℕ → ℕ) (a : ℕ) : ℕ → ℕ :=
  fun i => if i = a then f i + 1 else f i

/-- Python truthiness of an optional string: `None` and `""` are falsy. -/
def truthy : Option String → Option String
  | none => none
  | some s => if s = "" then none else some s

/-- `st` with the skip counter bumped (a `continue` after
`skipped_matches += 1`). -/
def skipRec (st : IngestState) : IngestState :=
  { st with skipped := st.skipped + 1 }

/-- The body of the per-pair symmetric update: one (radiant hero, dire hero)
combination contributes `pair_matches[r][d] += 1`, `pair_matches[d][r] += 1`
and one win increment on the winning side's cell. -/
def pairUpd (winSide : Side) (r d : ℕ) (st : IngestState) : IngestState :=
  { st with
    pair_matches := incPair (incPair st.pair_matches r d) d r
    pair_wins :=
      match winSide with
      | .radiant => incPair st.pair_wins r d
      | .dire => incPair st.pair_wins d r }

/-- Inner loop `for dire_idx, _ in sides["dire"]`. -/
def direLoop (winSide : Side) (r : ℕ) (ds : List ℕ) (st : IngestState) : IngestState :=
  ds.foldl (fun s d => pairUpd winSide r d s) st

/-- Outer loop `for rad_idx, _ in sides["radiant"]`. -/
def radLoop (winSide : Side) (rs ds : List ℕ) (st : IngestState) : IngestState :=
  rs.foldl (fun s r => direLoop winSide r ds s) st

/-- Per-hero stat loop for one side: `hero_matches[idx] += 1` and, when the
side won, `hero_wins[idx] += 1`. -/
def heroLoop (isWin : Bool) (idxs : List ℕ) (st : IngestState) : IngestState :=
  idxs.foldl
    (fun s idx =>
      { s with
        hero_matches := incOne s.hero_matches idx
        hero_wins := if isWin then incOne s.hero_wins idx else s.hero_wins })
    st

/-- Attribution of the players to one side: a player is kept when its hero
id is present and mapped, and its team name equals the given side's team
name; otherwise it is dropped individually. -/
def sidePlayers (hm : HeroMap) (rad dire : String) (side : Side)
    (ps : List PlayerEntry) : List ℕ :=
  ps.filterMap fun p =>
    match p.hero_id with
    | none => none
    | some hid =>
      match hm.lookup hid with
      | none => none
      | some idx =>
        match p.player_team with
        | none => none
        | some t =>
          if t = rad then (if side = .radiant then some idx else none)
          else if t = dire then (if side = .dire then some idx else none)
          else none

/-- Processing of one raw match record, mirroring the loop body of
`process_matches`. -/
def processRecord (hm : HeroMap) (st : IngestState) (r : MatchRecord) : IngestState :=
  let st := { st with total := st.total + 1 }
  match truthy r.radiant_team, truthy r.dire_team, truthy r.winner with
  | some rad, some dire, some win =>
    if r.players.length < 2 then skipRec st
    else
      let winSide : Option Side :=
        if win = rad then some .radiant
        else if win = dire then some .dire
        else none
      match winSide with
      | none => skipRec st
      | some ws =>
        let rads := sidePlayers hm rad dire .radiant r.players
        let dires := sidePlayers hm rad dire .dire r.players
        if rads = [] ∨ dires = [] then skipRec st
        else
          let st := heroLoop (ws = .radiant) rads st
          let st := heroLoop (ws = .dire) dires st
          radLoop ws rads dires st
  | _, _, _ => skipRec st

/-- `process_matches`: fold the record stream into the counters. -/
def process_matches (hm : HeroMap) (recs : List MatchRecord) : IngestState :=
  recs.foldl (processRecord hm) initIngest

/-- The pair-counter invariant of §3 of the spec: symmetric match counts and
complementary win counts off the diagonal. -/
def PairInv (st : IngestState) : Prop :=
  ∀ i j : ℕ, i ≠ j →
    st.pair_matches i j = st.pair_matches j i ∧
    st.pair_wins i j + st.pair_wins j i = st.pair_matches i j

lemma incPair_apply (f : ℕ → ℕ → ℕ) (a b i j : ℕ) :
    incPair f a b i j = f i j + (if i = a ∧ j = b then 1 else 0) := by
  unfold incPair
  split_ifs <;> simp

lemma pairUpd_inv {st : IngestState} (ws : Side) (r d : ℕ) (h : PairInv st) :
    PairInv (pairUpd ws r d st) := by
  intro i j hij
  obtain ⟨h1, h2⟩ := h i j hij
  by_cases c1 : i = r ∧ j = d
  · obtain ⟨rfl, rfl⟩ := c1
    cases ws <;>
      simp only [pairUpd, incPair_apply] <;>
      simp [hij, Ne.symm hij] <;> omega
  · by_cases c2 : i = d ∧ j = r
    · obtain ⟨rfl, rfl⟩ := c2
      cases ws <;>
        simp only [pairUpd, incPair_apply] <;>
        simp [hij, Ne.symm hij] <;> omega
    · have c1' : ¬(j = d ∧ i = r) := fun hh => c1 ⟨hh.2, hh.1⟩
      have c2' : ¬(j = r ∧ i = d) := fun hh => c2 ⟨hh.2, hh.1⟩
      cases ws <;>
        simp only [pairUpd, incPair_apply] <;>
        simp [c1, c2, c1', c2'] <;> omega

lemma pairInv_of_eq (st st' : IngestState)
    (hm : st'.pair_matches = st.pair_matches) (hw : st'.pair_wins = st.pair_wins)
    (h : PairInv st) : PairInv st' := by
  intro i j hij
  rw [hm, hw]
  exact h i j hij

lemma direLoop_inv (ws : Side) (r : ℕ) (ds : List ℕ) :
    ∀ st : IngestState, PairInv st → PairInv (direLoop ws r ds st) := by
  induction ds with
  | nil => intro st h; simpa [direLoop] using h
  | cons d ds ih =>
    intro st h
    simpa [direLoop] using ih _ (pairUpd_inv ws r d h)

lemma radLoop_inv (ws : Side) (rs ds : List ℕ) :
    ∀ st : IngestState, PairInv st → PairInv (radLoop ws rs ds st) := by
  induction rs with
  | nil => intro st h; simpa [radLoop] using h
  | cons r rs ih =>
    intro st h
    simpa [radLoop] using ih _ (direLoop_inv ws r ds st h)

lemma heroLoop_pair (w : Bool) (idxs : List ℕ) :
    ∀ st : IngestState,
      (heroLoop w idxs st).pair_matches = st.pair_matches ∧
      (heroLoop w idxs st).pair_wins = st.pair_wins := by
  induction idxs with
  | nil => intro st; simp [heroLoop]
  | cons a l ih =>
    intro st
    have := ih { st with
      hero_matches := incOne st.hero_matches a
      hero_wins := if w then incOne st.hero_wins a else st.hero_wins }
    simpa [heroLoop] using this

lemma stackedLoops_inv (ws : Side) (b1 b2 : Bool) (rads dires : List ℕ)
    {st : IngestState} (h : PairInv st) :
    PairInv (radLoop ws rads dires (heroLoop b2 dires (heroLoop b1 rads st))) := by
  apply radLoop_inv
  apply pairInv_of_eq _ _ (heroLoop_pair b2 dires _).1 (heroLoop_pair b2 dires _).2
  exact pairInv_of_eq _ _ (heroLoop_pair b1 rads _).1 (heroLoop_pair b1 rads _).2 h

lemma processRecord_inv (hm : HeroMap) (r : MatchRecord) {st : IngestState}
    (h : PairInv st) : PairInv (processRecord hm st r) := by
  have h1 : PairInv { st with total := st.total + 1 } :=
    pairInv_of_eq _ _ rfl rfl h
  have hskip : PairInv (skipRec { st with total := st.total + 1 }) :=
    pairInv_of_eq _ _ rfl rfl h1
  unfold processRecord
  split
  · split
    · exact hskip
    · split <;> dsimp only
      · split
        · exact hskip
        · exact stackedLoops_inv _ _ _ _ _ h1
      · split
        · exact hskip
        · split
          · exact hskip
          · exact stackedLoops_inv _ _ _ _ _ h1
  · exact hskip

lemma process_matches_inv (hm : HeroMap) (recs : List MatchRecord) :
    PairInv (process_matches hm recs) := by
  have init : PairInv initIngest := by
    intro i j _
    simp [initIngest]
  have main : ∀ (l : List MatchRecord) (st : IngestState),
      PairInv st → PairInv (l.foldl (processRecord hm) st) := by
    intro l
    induction l with
    | nil => intro st h; simpa using h
    | cons r l ih => intro st h; simpa using ih _ (processRecord_inv hm r h)
  exact main recs initIngest init

/-- **C1.** After ingesting any sequence of raw match records, for every
ordered pair of distinct hero indices `i ≠ j`, the pair counters satisfy
`matches(i,j) = matches(j,i)` and `wins(i,j) + wins(j,i) = matches(i,j)`. -/
theorem pair_counters_inv (hm : HeroMap) (recs : List MatchRecord) (i j : ℕ)
    (hij : i ≠ j) :
    (process_matches hm recs).pair_matches i j
        = (process_matches hm recs).pair_matches j i ∧
    (process_matches hm recs).pair_wins i j + (process_matches hm recs).pair_wins j i
        = (process_matches hm recs).pair_matches i j :=
  process_matches_inv hm recs i j hij

/-- A two-hero demonstration input: hero id 7 (index 0) beats hero id 9
(index 1). -/
def demoHeroMap : HeroMap := [(7, 0), (9, 1)]

def demoRecs : List MatchRecord :=
  [{ radiant_team := some "R"
     dire_team := some "D"
     winner := some "R"
     players := [⟨some 7, some "R"⟩, ⟨some 9, some "D"⟩] }]

/-- Witness of C1 at a concrete input. -/
theorem pair_counters_inv_witness :
    (0 : ℕ) ≠ 1 ∧
    ((process_matches demoHeroMap demoRecs).pair_matches 0 1
        = (process_matches demoHeroMap demoRecs).pair_matches 1 0 ∧
     (process_matches demoHeroMap demoRecs).pair_wins 0 1
        + (process_matches demoHeroMap demoRecs).pair_wins 1 0
        = (process_matches demoHeroMap demoRecs).pair_matches 0 1) :=
  ⟨by decide, pair_counters_inv demoHeroMap demoRecs 0 1 (by decide)⟩

example : (process_matches demoHeroMap demoRecs).pair_matches 0 1 = 1 := by decide
example : (process_matches demoHeroMap demoRecs).pair_wins 0 1 = 1 := by decide
example : (process_matches demoHeroMap demoRecs).pair_wins 1 0 = 0 := by decide
example : (process_matches demoHeroMap demoRecs).skipped = 0 := by decide

/-! ## Matrix building (`build_win_rates` in `generate_cs_matrix.py`)

`min_sample` is an `ℤ` (an arbitrary `int` command-line argument).  The
divisions are exact rational divisions; when a cell with `matches = 0`
passes the gate (only possible for `min_sample ≤ 0`) Python raises
`ZeroDivisionError` and publishes nothing, while the total division of `ℚ`
returns `0` — value statements about present cells therefore carry a
`0 < matches` hypothesis. -/

/-- `win_rate = wins / matches * 100.0` of a pair cell, as an exact
rational. -/
def wrRat (pm pw : ℕ → ℕ → ℕ) (i j : ℕ) : ℚ :=
  (pw i j : ℚ) / (pm i j : ℚ) * 100

/-- `advantage = win_rate - 50.0` of a pair cell. -/
def advRat (pm pw : ℕ → ℕ → ℕ) (i j : ℕ) : ℚ :=
  wrRat pm pw i j - 50

/-- One cell of the published matrix: `None` on the diagonal or below the
sample gate, otherwise the `[advantage_str, win_rate_str, matches]`
triple. -/
def winRateCell (pm pw : ℕ → ℕ → ℕ) (min_sample : ℤ) (i j : ℕ) :
    Option (String × String × ℕ) :=
  if i = j then none
  else if (pm i j : ℤ) < min_sample then none
  else some (pyFormat4 (advRat pm pw i j), pyFormat4 (wrRat pm pw i j), pm i j)

/-- `build_win_rates`: the `size × size` nested loop. -/
def build_win_rates (pm pw : ℕ → ℕ → ℕ) (min_sample : ℤ) (size : ℕ) :
    List (List (Option (String × String × ℕ))) :=
  (List.range size).map fun i =>
    (List.range size).map fun j => winRateCell pm pw min_sample i j

/-- Row-then-column access into the published matrix. -/
def cellAt (mtx : List (List (Option (String × String × ℕ)))) (i j : ℕ) :
    Option (String × String × ℕ) :=
  (mtx.getD i []).getD j none

lemma cellAt_build (pm pw : ℕ → ℕ → ℕ) (ms : ℤ) {size i j : ℕ}
    (hi : i < size) (hj : j < size) :
    cellAt (build_win_rates pm pw ms size) i j = winRateCell pm pw ms i j := by
  simp [cellAt, build_win_rates, List.getD_eq_getElem?_getD, List.getElem?_map,
    List.getElem?_range, hi, hj]

/-- **C2.** For every pair-counter matrix and `min_sample` threshold, the
published advantage cell at `(i,j)` is the null marker iff `i = j` or
`matches(i,j) < min_sample`; a present cell (with `matches > 0`, without
which the Python run aborts on a zero division before publishing) is the
triple `[advantage %.4f string, win_rate %.4f string, matches]` with
`win_rate = wins/matches*100` and `advantage = win_rate - 50`. -/
theorem build_win_rates_spec (pm pw : ℕ → ℕ → ℕ) (ms : ℤ) (size i j : ℕ)
    (hi : i < size) (hj : j < size) :
    (cellAt (build_win_rates pm pw ms size) i j = none ↔
        i = j ∨ (pm i j : ℤ) < ms) ∧
    (∀ c, cellAt (build_win_rates pm pw ms size) i j = some c → 0 < pm i j →
        c = (pyFormat4 ((pw i j : ℚ) / (pm i j : ℚ) * 100 - 50),
             pyFormat4 ((pw i j : ℚ) / (pm i j : ℚ) * 100), pm i j)) := by
  rw [cellAt_build pm pw ms hi hj]
  unfold winRateCell
  constructor
  · split_ifs with h1 h2
    · simp [h1]
    · simp [h1, h2]
    · simp [h1, h2]
  · intro c hc _
    split_ifs at hc
    simp only [Option.some.injEq] at hc
    rw [← hc]
    rfl

/-- Witness of C2 at a concrete input. -/
theorem build_win_rates_spec_witness :
    ((0 : ℕ) < 2) ∧ ((1 : ℕ) < 2) ∧
    ((cellAt (build_win_rates (fun _ _ => 10) (fun _ _ => 7) 5 2) 0 1 = none ↔
        (0 : ℕ) = 1 ∨ ((10 : ℕ) : ℤ) < 5) ∧
     (∀ c, cellAt (build_win_rates (fun _ _ => 10) (fun _ _ => 7) 5 2) 0 1 = some c →
        0 < 10 →
        c = (pyFormat4 (((7 : ℕ) : ℚ) / ((10 : ℕ) : ℚ) * 100 - 50),
             pyFormat4 (((7 : ℕ) : ℚ) / ((10 : ℕ) : ℚ) * 100), 10))) :=
  ⟨by decide, by decide,
    build_win_rates_spec (fun _ _ => 10) (fun _ _ => 7) 5 2 0 1 (by decide) (by decide)⟩

/-- **C3.** For counters satisfying the ingestion invariant
(`wins(i,j) + wins(j,i) = matches(i,j)`, `matches(i,j) = matches(j,i)`) and
a positive sample count (any run that completes has one: a zero-sample pair
admitted by the gate raises `ZeroDivisionError` before anything is
published), whenever both cells `(i,j)` and `(j,i)` are present,
the advantage values are exact negations of each other, hence so are their
4-decimal roundings (the formatted strings agree up to sign). -/
theorem advantage_antisymmetry (pm pw : ℕ → ℕ → ℕ) (ms : ℤ) (size i j : ℕ)
    (hmpos : 0 < pm i j) (hi : i < size) (hj : j < size)
    (hsym : pm i j = pm j i) (hcomp : pw i j + pw j i = pm i j)
    (c c' : String × String × ℕ)
    (hij : cellAt (build_win_rates pm pw ms size) i j = some c)
    (hji : cellAt (build_win_rates pm pw ms size) j i = some c') :
    c.1 = pyFormat4 (advRat pm pw i j) ∧
    c'.1 = pyFormat4 (advRat pm pw j i) ∧
    advRat pm pw i j = - advRat pm pw j i ∧
    rhe (advRat pm pw i j * 10000) = - rhe (advRat pm pw j i * 10000) := by
  rw [cellAt_build pm pw ms hi hj] at hij
  rw [cellAt_build pm pw ms hj hi] at hji
  unfold winRateCell at hij hji
  split_ifs at hij hji with h1 h2 h3 h4
  simp only [Option.some.injEq] at hij hji
  have hm : ((pm i j : ℚ)) ≠ 0 := Nat.cast_ne_zero.mpr (Nat.pos_iff_ne_zero.mp hmpos)
  have hw : (pw i j : ℚ) + (pw j i : ℚ) = (pm i j : ℚ) := by
    exact_mod_cast hcomp
  have hneg : advRat pm pw i j = - advRat pm pw j i := by
    unfold advRat wrRat
    rw [← hsym]
    field_simp
    linarith
  refine ⟨by rw [← hij], by rw [← hji], hneg, ?_⟩
  rw [hneg, neg_mul, rhe_neg]

/-- Concrete pair counters for the C3 witness: 4 encounters of heroes 0 and
1, of which hero 0 won 3. -/
def witPm : ℕ → ℕ → ℕ := fun _ _ => 4

def witPw : ℕ → ℕ → ℕ := fun i j =>
  if i = 0 ∧ j = 1 then 3 else if i = 1 ∧ j = 0 then 1 else 0

lemma pyFormat4_25 : pyFormat4 (25 : ℚ) = "25.0000" := by
  rw [pyFormat4, rhe_eq_low ((25 : ℚ) * 10000) 250000 (by norm_num) (by norm_num),
    if_neg (by norm_num)]
  decide

lemma pyFormat4_75 : pyFormat4 (75 : ℚ) = "75.0000" := by
  rw [pyFormat4, rhe_eq_low ((75 : ℚ) * 10000) 750000 (by norm_num) (by norm_num),
    if_neg (by norm_num)]
  decide

lemma pyFormat4_neg25 : pyFormat4 (-25 : ℚ) = "-25.0000" := by
  rw [pyFormat4, rhe_eq_low ((-25 : ℚ) * 10000) (-250000) (by norm_num) (by norm_num),
    if_pos (by norm_num)]
  decide

lemma witCell01 :
    cellAt (build_win_rates witPm witPw 4 2) 0 1 = some ("25.0000", "75.0000", 4) := by
  rw [cellAt_build witPm witPw 4 (by decide) (by decide)]
  unfold winRateCell
  rw [if_neg (by decide), if_neg (by decide)]
  have ha : advRat witPm witPw 0 1 = 25 := by
    norm_num [advRat, wrRat, witPm, witPw]
  have hb : wrRat witPm witPw 0 1 = 75 := by
    norm_num [wrRat, witPm, witPw]
  rw [ha, hb, pyFormat4_25, pyFormat4_75]
  rfl

lemma witCell10 :
    cellAt (build_win_rates witPm witPw 4 2) 1 0 = some ("-25.0000", "25.0000", 4) := by
  rw [cellAt_build witPm witPw 4 (by decide) (by decide)]
  unfold winRateCell
  rw [if_neg (by decide), if_neg (by decide)]
  have ha : advRat witPm witPw 1 0 = -25 := by
    norm_num [advRat, wrRat, witPm, witPw]
  have hb : wrRat witPm witPw 1 0 = 25 := by
    norm_num [wrRat, witPm, witPw]
  rw [ha, hb, pyFormat4_neg25, pyFormat4_25]
  rfl

/-! ## Dataset projection (`build_match_dataset` in `run_wr_pct_strategy.py`)

Python string primitives are modelled at the character-list level
(`str.split`, `str.strip`, `str.lower`, the NBSP replacement), ASCII-faithful
with the usual caveat that Python's `lower`/`strip` also cover non-ASCII
case mappings and whitespace.  Odds columns are modelled after `safe_float`:
`some q` for a parsed float, `none` for a missing/unparsable value (no sign
or range check — `safe_float` accepts any float literal).  The loaded
`win_rates` cells carry the numeric values parsed back out of the published
strings. -/

/-- Python `"...".split("|")` on a character list. -/
def splitPipe : List Char → List (List Char)
  | [] => [[]]
  | c :: rest =>
    match splitPipe rest with
    | [] => [[c]]
    | h :: t => if c = '|' then [] :: h :: t else (c :: h) :: t

/-- Python `str.strip()` (ASCII whitespace). -/
def stripChars (l : List Char) : List Char :=
  ((l.dropWhile Char.isWhitespace).reverse.dropWhile Char.isWhitespace).reverse

/-- `normalize_name`: replace NBSP by a space, strip, lowercase. -/
def normalize_name (s : String) : String :=
  String.mk
    (((s.data.map fun c => if c = Char.ofNat 160 then ' ' else c)
        |> stripChars).map Char.toLower)

/-- `[h.strip() for h in raw.split("|") if h.strip()]`. -/
def cleanRoster (s : String) : List String :=
  ((splitPipe s.data).map fun cs => String.mk (stripChars cs)).filter
    fun t => !(t == "")

/-- The `hero_index` dict comprehension: a later hero with the same
normalized name overwrites an earlier one, hence lookup scans the reversed
enumeration. -/
def heroIndexPairs (heroes : List String) : List (String × ℕ) :=
  (heroes.enum.map fun p => (normalize_name p.2, p.1)).reverse

def heroIndexLookup (heroes : List String) (key : String) : Option ℕ :=
  (heroIndexPairs heroes).lookup key

/-- A loaded advantage cell `[advantage, win_rate, sample]`, by numeric
value (the strings are parsed with `float(...)` on use). -/
abbrev LoadedCell := ℚ × ℚ × ℤ

/-- The relevant fields of the re-loaded `cs.json` data. -/
structure CSData where
  heroes : List String
  heroes_wr : List ℚ
  win_rates : List (List (Option LoadedCell))

inductive Team | team1 | team2
deriving DecidableEq

/-- One row of the historical wager CSV (odds already through
`safe_float`). -/
structure WagerRow where
  team1 : String
  team2 : String
  team1_heroes : String
  team2_heroes : String
  team1_odds : Option ℚ
  team2_odds : Option ℚ
  winner : String
deriving DecidableEq

/-- One projected match of the dataset. -/
structure ProjectedMatch where
  delta : ℚ
  odds_team1 : ℚ
  odds_team2 : ℚ
  winner : Team
deriving DecidableEq

/-- `hero_adv`: negated sum of the stored advantage of every opponent
against `heroIdx` (absent cells contribute nothing). -/
def hero_adv (win_rates : List (List (Option LoadedCell))) (heroIdx : ℕ)
    (opps : List ℕ) : ℚ :=
  (opps.foldl
    (fun total o =>
      match (win_rates.getD o []).getD heroIdx none with
      | some cell => total + cell.1
      | none => total)
    0) * (-1)

/-- The advantage value read from cell `(o, h)`, `0` when absent. -/
def advCellVal (win_rates : List (List (Option LoadedCell))) (o h : ℕ) : ℚ :=
  match (win_rates.getD o []).getD h none with
  | some cell => cell.1
  | none => 0

/-- Resolution of a roster to hero indices; any unresolved name drops the
whole row. -/
def resolveTeam (heroes : List String) (names : List String) : Option (List ℕ) :=
  names.mapM fun h => heroIndexLookup heroes (normalize_name h)

/-- `sum(hero_wr[idx] + hero_adv(idx, opp) for idx in team)`. -/
def teamScore (cs : CSData) (team opp : List ℕ) : ℚ :=
  (team.map fun idx => cs.heroes_wr.getD idx 0 + hero_adv cs.win_rates idx opp).sum

/-- Projection of a single wager row to a dataset entry, `none` when the
row is dropped. -/
def projectRow (cs : CSData) (row : WagerRow) : Option ProjectedMatch :=
  let t1 := cleanRoster row.team1_heroes
  let t2 := cleanRoster row.team2_heroes
  if t1.length ≠ 5 ∨ t2.length ≠ 5 then none
  else
    match resolveTeam cs.heroes t1, resolveTeam cs.heroes t2 with
    | some t1i, some t2i =>
      let s1 := teamScore cs t1i t2i
      let s2 := teamScore cs t2i t1i
      let w : Option Team :=
        if row.winner = row.team1 then some .team1
        else if row.winner = row.team2 then some .team2
        else none
      match w, row.team1_odds, row.team2_odds with
      | some wt, some o1, some o2 => some ⟨s1 - s2, o1, o2, wt⟩
      | _, _, _ => none
    | _, _ => none

/-- The imperative accumulation loop (`dataset.append(...)`). -/
def buildAux (cs : CSData) : List WagerRow → List ProjectedMatch → List ProjectedMatch
  | [], acc => acc
  | r :: rest, acc =>
    match projectRow cs r with
    | none => buildAux cs rest acc
    | some m => buildAux cs rest (acc ++ [m])

/-- `build_match_dataset`. -/
def build_match_dataset (cs : CSData) (rows : List WagerRow) : List ProjectedMatch :=
  buildAux cs rows []

lemma buildAux_eq (cs : CSData) :
    ∀ (rows : List WagerRow) (acc : List ProjectedMatch),
      buildAux cs rows acc = acc ++ rows.filterMap (projectRow cs) := by
  intro rows
  induction rows with
  | nil => intro acc; simp [buildAux]
  | cons r rest ih =>
    intro acc
    unfold buildAux
    cases h : projectRow cs r with
    | none => simp [List.filterMap_cons, h, ih]
    | some m => simp [List.filterMap_cons, h, ih]

lemma hero_adv_eq (wrm : List (List (Option LoadedCell))) (h : ℕ) (opps : List ℕ) :
    hero_adv wrm h opps = - (opps.map fun o => advCellVal wrm o h).sum := by
  have key : ∀ (l : List ℕ) (a : ℚ),
      l.foldl
        (fun total o =>
          match (wrm.getD o []).getD h none with
          | some cell => total + cell.1
          | none => total)
        a = a + (l.map fun o => advCellVal wrm o h).sum := by
    intro l
    induction l with
    | nil => intro a; simp
    | cons o l ih =>
      intro a
      have hstep : ∀ t : ℚ,
          (match (wrm.getD o []).getD h none with
            | some cell => t + cell.1
            | none => t) = t + advCellVal wrm o h := by
        intro t
        unfold advCellVal
        rcases (wrm.getD o []).getD h none with _ | cell
        · simp
        · rfl
      rw [List.foldl_cons, List.map_cons, List.sum_cons]
      rw [hstep a, ih]
      ring
  unfold hero_adv
  rw [key]
  ring

lemma teamScore_eq (cs : CSData) (team opp : List ℕ) :
    teamScore cs team opp =
      (team.map fun h =>
        cs.heroes_wr.getD h 0 - (opp.map fun o => advCellVal cs.win_rates o h).sum).sum := by
  unfold teamScore
  simp only [hero_adv_eq, ← sub_eq_add_neg]

/-- **C4.** The projected dataset lists the resolved rows in input order
(the loop is an order-preserving `filterMap`), and every resolved row's
`delta` is `team1_score - team2_score` where each hero contributes its win
rate minus the sum of the stored advantages of the opposing heroes against
it (absent cells contributing 0). -/
theorem build_match_dataset_spec (cs : CSData) (rows : List WagerRow) :
    build_match_dataset cs rows = rows.filterMap (projectRow cs) ∧
    ∀ r ∈ rows, ∀ m, projectRow cs r = some m →
      ∃ t1i t2i,
        resolveTeam cs.heroes (cleanRoster r.team1_heroes) = some t1i ∧
        resolveTeam cs.heroes (cleanRoster r.team2_heroes) = some t2i ∧
        m.delta =
          (t1i.map fun h =>
            cs.heroes_wr.getD h 0 -
              (t2i.map fun o => advCellVal cs.win_rates o h).sum).sum -
          (t2i.map fun h =>
            cs.heroes_wr.getD h 0 -
              (t1i.map fun o => advCellVal cs.win_rates o h).sum).sum := by
  constructor
  · unfold build_match_dataset
    rw [buildAux_eq]
    simp
  · intro r _ m hm
    simp only [projectRow] at hm
    by_cases hlen :
        (cleanRoster r.team1_heroes).length ≠ 5 ∨ (cleanRoster r.team2_heroes).length ≠ 5
    · rw [if_pos hlen] at hm
      exact Option.noConfusion hm
    · rw [if_neg hlen] at hm
      rcases h1 : resolveTeam cs.heroes (cleanRoster r.team1_heroes) with _ | t1i <;>
        rw [h1] at hm
      · exact Option.noConfusion hm
      · rcases h2 : resolveTeam cs.heroes (cleanRoster r.team2_heroes) with _ | t2i <;>
          rw [h2] at hm
        · exact Option.noConfusion hm
        · rcases ho1 : r.team1_odds with _ | o1 <;> rw [ho1] at hm
          · rcases hw : (if r.winner = r.team1 then some Team.team1
                else if r.winner = r.team2 then some Team.team2 else none) with _ | wt <;>
              rw [hw] at hm <;> exact Option.noConfusion hm
          · rcases ho2 : r.team2_odds with _ | o2 <;> rw [ho2] at hm
            · rcases hw : (if r.winner = r.team1 then some Team.team1
                  else if r.winner = r.team2 then some Team.team2 else none) with _ | wt <;>
                rw [hw] at hm <;> exact Option.noConfusion hm
            · rcases hw : (if r.winner = r.team1 then some Team.team1
                  else if r.winner = r.team2 then some Team.team2 else none) with _ | wt <;>
                rw [hw] at hm
              · exact Option.noConfusion hm
              · simp only [Option.some.injEq] at hm
                refine ⟨t1i, t2i, rfl, rfl, ?_⟩
                rw [← hm]
                simp only []
                rw [teamScore_eq, teamScore_eq]

/-- Demonstration inputs for C4: ten heroes, flat 50% win rates, an empty
advantage matrix, a single fully-resolvable wager row. -/
def demoCS : CSData :=
  ⟨["Axe", "Bane", "Crystal Maiden", "Doom", "Earthshaker",
    "Faceless Void", "Gyrocopter", "Huskar", "Invoker", "Juggernaut"],
   [50, 50, 50, 50, 50, 50, 50, 50, 50, 50], []⟩

def demoRow : WagerRow :=
  ⟨"T1", "T2", "Axe|Bane|Crystal Maiden|Doom|Earthshaker",
   "Faceless Void|Gyrocopter|Huskar|Invoker|Juggernaut",
   some 2, some 3, "T1"⟩

def demoProjected : ProjectedMatch :=
  ⟨teamScore demoCS [0, 1, 2, 3, 4] [5, 6, 7, 8, 9] -
     teamScore demoCS [5, 6, 7, 8, 9] [0, 1, 2, 3, 4], 2, 3, .team1⟩

lemma demoProject : projectRow demoCS demoRow = some demoProjected := by
  simp only [projectRow]
  rw [if_neg (by decide)]
  rw [show resolveTeam demoCS.heroes (cleanRoster demoRow.team1_heroes)
        = some [0, 1, 2, 3, 4] from by decide,
      show resolveTeam demoCS.heroes (cleanRoster demoRow.team2_heroes)
        = some [5, 6, 7, 8, 9] from by decide]
  rw [show (if demoRow.winner = demoRow.team1 then some Team.team1
        else if demoRow.winner = demoRow.team2 then some Team.team2 else none)
      = some Team.team1 from by rw [if_pos (by decide)]]
  rfl

/-- Witness of C4 at a concrete input. -/
theorem build_match_dataset_spec_witness :
    demoRow ∈ [demoRow] ∧
    projectRow demoCS demoRow = some demoProjected ∧
    build_match_dataset demoCS [demoRow] = [demoRow].filterMap (projectRow demoCS) ∧
    (∃ t1i t2i,
      resolveTeam demoCS.heroes (cleanRoster demoRow.team1_heroes) = some t1i ∧
      resolveTeam demoCS.heroes (cleanRoster demoRow.team2_heroes) = some t2i ∧
      demoProjected.delta =
        (t1i.map fun h =>
          demoCS.heroes_wr.getD h 0 -
            (t2i.map fun o => advCellVal demoCS.win_rates o h).sum).sum -
        (t2i.map fun h =>
          demoCS.heroes_wr.getD h 0 -
            (t1i.map fun o => advCellVal demoCS.win_rates o h).sum).sum) :=
  ⟨List.mem_singleton.mpr rfl, demoProject,
    (build_match_dataset_spec demoCS [demoRow]).1,
    (build_match_dataset_spec demoCS [demoRow]).2 demoRow (List.mem_singleton.mpr rfl)
      demoProjected demoProject⟩

/-- Witness of C3 at a concrete input: 4 encounters, 3 won by hero 0. -/
theorem advantage_antisymmetry_witness :
    (0 < witPm 0 1) ∧ ((0 : ℕ) < 2) ∧ ((1 : ℕ) < 2) ∧
    (witPm 0 1 = witPm 1 0) ∧ (witPw 0 1 + witPw 1 0 = witPm 0 1) ∧
    (cellAt (build_win_rates witPm witPw 4 2) 0 1
        = some ("25.0000", "75.0000", 4)) ∧
    (cellAt (build_win_rates witPm witPw 4 2) 1 0
        = some ("-25.0000", "25.0000", 4)) ∧
    (("25.0000", "75.0000", (4 : ℕ)).1 = pyFormat4 (advRat witPm witPw 0 1) ∧
     ("-25.0000", "25.0000", (4 : ℕ)).1 = pyFormat4 (advRat witPm witPw 1 0) ∧
     advRat witPm witPw 0 1 = - advRat witPm witPw 1 0 ∧
     rhe (advRat witPm witPw 0 1 * 10000) = - rhe (advRat witPm witPw 1 0 * 10000)) :=
  ⟨by decide, by decide, by decide, by decide, by decide,
    witCell01, witCell10,
    advantage_antisymmetry witPm witPw 4 2 0 1 (by decide) (by decide) (by decide)
      (by decide) (by decide) _ _ witCell01 witCell10⟩

/-! ## Flat-percentage strategy simulation (`simulate` in
`run_wr_pct_strategy.py`)

The module-level grids are modelled by their exact decimal values.  The
`SimState` record carries three instrumentation fields absent from the
Python (`betList`, `bankTrace`, `zeroStakeSkips`) recording which branch
each iteration took; they influence none of the published fields.  The
cosmetic string fields of the result dict (`strategy_group`, `hero_filter`,
`odds_condition`, `metric`) are omitted. -/

def PERCENTS : List ℚ := [1/10, 1/5, 3/10, 2/5, 1/2]

def ODDS_CAPS : List ℚ := [19/10, 9/5, 17/10, 8/5, 3/2, 7/5, 13/10, 6/5]

def DELTA_THRESHOLDS : List ℕ := [50, 100, 150, 200, 250, 300, 350, 400]

def START_BANKROLL : ℚ := 1000

def MAX_BET : ℚ := 10000

/-- `predicted = "team1" if delta > 0 else "team2"`. -/
def predictedSide (delta : ℚ) : Team :=
  if delta > 0 then .team1 else .team2

/-- The predicted side's odds. -/
def predOdds (m : ProjectedMatch) : ℚ :=
  if predictedSide m.delta = .team1 then m.odds_team1 else m.odds_team2

structure SimState where
  bankroll : ℚ
  total_staked : ℚ
  max_stake : ℚ
  peak : ℚ
  max_drawdown : ℚ
  bets : ℕ
  wins : ℕ
  losses : ℕ
  betList : List (ProjectedMatch × Team × ℚ)
  bankTrace : List ℚ
  zeroStakeSkips : ℕ

def initSim : SimState := ⟨1000, 0, 0, 1000, 0, 0, 0, 0, [], [], 0⟩

/-- One iteration of the inner loop of `simulate`. -/
def simStep (pct cap : ℚ) (threshold : ℕ) (st : SimState) (m : ProjectedMatch) :
    SimState :=
  if |m.delta| < (threshold : ℚ) then st
  else
    let odds := predOdds m
    if odds ≥ cap then st
    else
      let stake0 := st.bankroll * pct
      let stake := if stake0 > MAX_BET then MAX_BET else stake0
      if stake ≤ 0 then { st with zeroStakeSkips := st.zeroStakeSkips + 1 }
      else
        let st1 := { st with
          bets := st.bets + 1
          total_staked := st.total_staked + stake
          max_stake := max st.max_stake stake
          betList := st.betList ++ [(m, predictedSide m.delta, odds)] }
        let st2 :=
          if m.winner = predictedSide m.delta then
            { st1 with wins := st1.wins + 1, bankroll := st1.bankroll + stake * (odds - 1) }
          else
            { st1 with losses := st1.losses + 1, bankroll := st1.bankroll - stake }
        let newPeak := max st2.peak st2.bankroll
        { st2 with
          peak := newPeak
          max_drawdown := max st2.max_drawdown (newPeak - st2.bankroll)
          bankTrace := st2.bankTrace ++ [st2.bankroll] }

/-- The replay of the dataset for one `(pct, odds_cap, threshold)`. -/
def runSim (ds : List ProjectedMatch) (pct cap : ℚ) (threshold : ℕ) : SimState :=
  ds.foldl (simStep pct cap threshold) initSim

lemma simStep_skip_th {pct cap : ℚ} {th : ℕ} {st : SimState} {m : ProjectedMatch}
    (h : |m.delta| < (th : ℚ)) : simStep pct cap th st m = st := by
  simp only [simStep]
  rw [if_pos h]

lemma simStep_skip_odds {pct cap : ℚ} {th : ℕ} {st : SimState} {m : ProjectedMatch}
    (h1 : ¬(|m.delta| < (th : ℚ))) (h2 : predOdds m ≥ cap) :
    simStep pct cap th st m = st := by
  simp only [simStep]
  rw [if_neg h1, if_pos h2]

lemma simStep_skip_stake {pct cap : ℚ} {th : ℕ} {st : SimState} {m : ProjectedMatch}
    (h1 : ¬(|m.delta| < (th : ℚ))) (h2 : ¬(predOdds m ≥ cap))
    (h3 : (if st.bankroll * pct > MAX_BET then MAX_BET else st.bankroll * pct) ≤ 0) :
    simStep pct cap th st m = { st with zeroStakeSkips := st.zeroStakeSkips + 1 } := by
  simp only [simStep]
  rw [if_neg h1, if_neg h2, if_pos h3]

lemma simStep_bet_win {pct cap : ℚ} {th : ℕ} {st : SimState} {m : ProjectedMatch}
    (h1 : ¬(|m.delta| < (th : ℚ))) (h2 : ¬(predOdds m ≥ cap))
    (h3 : ¬((if st.bankroll * pct > MAX_BET then MAX_BET else st.bankroll * pct) ≤ 0))
    (hw : m.winner = predictedSide m.delta)
    (stake : ℚ)
    (hs : stake = if st.bankroll * pct > MAX_BET then MAX_BET else st.bankroll * pct) :
    simStep pct cap th st m =
      { st with
        bets := st.bets + 1
        total_staked := st.total_staked + stake
        max_stake := max st.max_stake stake
        betList := st.betList ++ [(m, predictedSide m.delta, predOdds m)]
        wins := st.wins + 1
        bankroll := st.bankroll + stake * (predOdds m - 1)
        peak := max st.peak (st.bankroll + stake * (predOdds m - 1))
        max_drawdown := max st.max_drawdown
          (max st.peak (st.bankroll + stake * (predOdds m - 1)) -
            (st.bankroll + stake * (predOdds m - 1)))
        bankTrace := st.bankTrace ++ [st.bankroll + stake * (predOdds m - 1)] } := by
  subst hs
  simp only [simStep]
  rw [if_neg h1, if_neg h2, if_neg h3, if_pos hw]

lemma simStep_bet_loss {pct cap : ℚ} {th : ℕ} {st : SimState} {m : ProjectedMatch}
    (h1 : ¬(|m.delta| < (th : ℚ))) (h2 : ¬(predOdds m ≥ cap))
    (h3 : ¬((if st.bankroll * pct > MAX_BET then MAX_BET else st.bankroll * pct) ≤ 0))
    (hw : ¬(m.winner = predictedSide m.delta))
    (stake : ℚ)
    (hs : stake = if st.bankroll * pct > MAX_BET then MAX_BET else st.bankroll * pct) :
    simStep pct cap th st m =
      { st with
        bets := st.bets + 1
        total_staked := st.total_staked + stake
        max_stake := max st.max_stake stake
        betList := st.betList ++ [(m, predictedSide m.delta, predOdds m)]
        losses := st.losses + 1
        bankroll := st.bankroll - stake
        peak := max st.peak (st.bankroll - stake)
        max_drawdown := max st.max_drawdown
          (max st.peak (st.bankroll - stake) - (st.bankroll - stake))
        bankTrace := st.bankTrace ++ [st.bankroll - stake] } := by
  subst hs
  simp only [simStep]
  rw [if_neg h1, if_neg h2, if_neg h3, if_neg hw]

lemma stake_bounds {bank pct : ℚ} (hb : 0 < bank) (h0 : 0 < pct) :
    0 < (if bank * pct > MAX_BET then MAX_BET else bank * pct) ∧
    (if bank * pct > MAX_BET then MAX_BET else bank * pct) ≤ bank * pct := by
  unfold MAX_BET
  split_ifs with h
  · exact ⟨by norm_num, le_of_lt h⟩
  · exact ⟨mul_pos hb h0, le_refl _⟩

/-- One simulator step under a positive bankroll, positive sub-unit stake
fraction and nonnegative odds: the bankroll stays positive, the zero-stake
skip branch is not taken, and the bet list grows by exactly the eligible
bet. -/
lemma simStep_char (pct cap : ℚ) (th : ℕ) (st : SimState) (m : ProjectedMatch)
    (hp0 : 0 < pct) (hp1 : pct < 1) (hb : 0 < st.bankroll)
    (ho1 : 0 ≤ m.odds_team1) (ho2 : 0 ≤ m.odds_team2) :
    0 < (simStep pct cap th st m).bankroll ∧
    (simStep pct cap th st m).zeroStakeSkips = st.zeroStakeSkips ∧
    (simStep pct cap th st m).betList =
      st.betList ++
        (if (th : ℚ) ≤ |m.delta| ∧ predOdds m < cap
          then [(m, predictedSide m.delta, predOdds m)] else []) ∧
    ∀ b ∈ (simStep pct cap th st m).bankTrace, b ∈ st.bankTrace ∨ 0 < b := by
  have hodds : 0 ≤ predOdds m := by
    unfold predOdds
    split_ifs
    · exact ho1
    · exact ho2
  obtain ⟨hs0, hs1⟩ := stake_bounds hb hp0
  have hsb : (if st.bankroll * pct > MAX_BET then MAX_BET else st.bankroll * pct)
      < st.bankroll :=
    lt_of_le_of_lt hs1 (mul_lt_of_lt_one_right hb hp1)
  by_cases h1 : |m.delta| < (th : ℚ)
  · rw [simStep_skip_th h1]
    refine ⟨hb, rfl, ?_, fun b hb' => Or.inl hb'⟩
    rw [if_neg (fun hc => absurd hc.1 (not_le.mpr h1)), List.append_nil]
  · by_cases h2 : predOdds m ≥ cap
    · rw [simStep_skip_odds h1 h2]
      refine ⟨hb, rfl, ?_, fun b hb' => Or.inl hb'⟩
      rw [if_neg (fun hc => absurd hc.2 (not_lt.mpr h2)), List.append_nil]
    · have h3 : ¬((if st.bankroll * pct > MAX_BET then MAX_BET else st.bankroll * pct) ≤ 0) :=
        not_le.mpr hs0
      have hcond : ((th : ℚ) ≤ |m.delta| ∧ predOdds m < cap) :=
        ⟨not_lt.mp h1, lt_of_not_ge h2⟩
      by_cases hw : m.winner = predictedSide m.delta
      · rw [simStep_bet_win h1 h2 h3 hw _ rfl]
        have hmul : 0 ≤ (if st.bankroll * pct > MAX_BET then MAX_BET
            else st.bankroll * pct) * predOdds m := mul_nonneg hs0.le hodds
        have hbank : 0 < st.bankroll +
            (if st.bankroll * pct > MAX_BET then MAX_BET else st.bankroll * pct) *
              (predOdds m - 1) := by nlinarith
        refine ⟨hbank, rfl, by rw [if_pos hcond], ?_⟩
        intro b hb'
        rcases List.mem_append.mp hb' with h | h
        · exact Or.inl h
        · rcases List.mem_singleton.mp h with rfl
          exact Or.inr hbank
      · rw [simStep_bet_loss h1 h2 h3 hw _ rfl]
        have hbank : 0 < st.bankroll -
            (if st.bankroll * pct > MAX_BET then MAX_BET else st.bankroll * pct) := by
          linarith
        refine ⟨hbank, rfl, by rw [if_pos hcond], ?_⟩
        intro b hb'
        rcases List.mem_append.mp hb' with h | h
        · exact Or.inl h
        · rcases List.mem_singleton.mp h with rfl
          exact Or.inr hbank

lemma runSim_char (pct cap : ℚ) (th : ℕ) (hp0 : 0 < pct) (hp1 : pct < 1) :
    ∀ (l : List ProjectedMatch) (st : SimState),
      0 < st.bankroll →
      (∀ m ∈ l, 0 ≤ m.odds_team1 ∧ 0 ≤ m.odds_team2) →
      0 < (l.foldl (simStep pct cap th) st).bankroll ∧
      (l.foldl (simStep pct cap th) st).zeroStakeSkips = st.zeroStakeSkips ∧
      (l.foldl (simStep pct cap th) st).betList =
        st.betList ++
          l.filterMap (fun m =>
            if (th : ℚ) ≤ |m.delta| ∧ predOdds m < cap
            then some (m, predictedSide m.delta, predOdds m) else none) ∧
      ∀ b ∈ (l.foldl (simStep pct cap th) st).bankTrace, b ∈ st.bankTrace ∨ 0 < b := by
  intro l
  induction l with
  | nil =>
    intro st hbk _
    exact ⟨hbk, rfl, by simp, fun b hb' => Or.inl hb'⟩
  | cons m l ih =>
    intro st hbk ho
    obtain ⟨c1, c2, c3, c4⟩ :=
      simStep_char pct cap th st m hp0 hp1 hbk (ho m (List.mem_cons_self m l)).1
        (ho m (List.mem_cons_self m l)).2
    obtain ⟨d1, d2, d3, d4⟩ :=
      ih (simStep pct cap th st m) c1 fun m' hm' => ho m' (List.mem_cons_of_mem _ hm')
    rw [List.foldl_cons]
    refine ⟨d1, by rw [d2, c2], ?_, ?_⟩
    · rw [d3, c3, List.filterMap_cons]
      split_ifs <;> simp
    · intro b hb'
      rcases d4 b hb' with h | h
      · rcases c4 b h with h' | h'
        · exact Or.inl h'
        · exact Or.inr h'
      · exact Or.inr h

/-- The numeric fields of one result row of `simulate`. -/
structure SimResult where
  delta_threshold : ℕ
  bets : ℕ
  wins : ℕ
  losses : ℕ
  win_pct : ℚ
  final_bank : ℤ
  profit : ℤ
  total_staked : ℤ
  roi : ℚ
  max_drawdown : ℤ
  max_stake : ℤ
deriving DecidableEq

def finalizeSim (threshold : ℕ) (st : SimState) : SimResult :=
  let profit := st.bankroll - START_BANKROLL
  let roi := if st.total_staked ≠ 0 then profit / st.total_staked else 0
  ⟨threshold, st.bets, st.wins, st.losses,
   pyRoundTo 2 (if st.bets ≠ 0 then (st.wins : ℚ) / (st.bets : ℚ) * 100 else 0),
   rhe st.bankroll, rhe profit, rhe st.total_staked, pyRoundTo 4 roi,
   rhe st.max_drawdown, rhe st.max_stake⟩

/-- `simulate`: one result row per threshold of the grid. -/
def simulate (ds : List ProjectedMatch) (pct cap : ℚ) : List SimResult :=
  DELTA_THRESHOLDS.map fun th => finalizeSim th (runSim ds pct cap th)

/-! ## Martingale trade lists and analysis (`main` in
`run_wr_pct_strategy.py`)

`trade_map` is the `defaultdict(list)` keyed by `(odds_cap, threshold)`
pairs, modelled as a total function defaulting to `[]`. -/

abbrev TradeMap := ℚ × ℕ → List (Bool × ℚ)

def tmAppend (tm : TradeMap) (key : ℚ × ℕ) (e : Bool × ℚ) : TradeMap :=
  fun k => if k = key then tm k ++ [e] else tm k

/-- Inner loop `for cap in ODDS_CAPS`. -/
def capLoop (res : Bool) (odds : ℚ) (th : ℕ) (caps : List ℚ) (tm : TradeMap) :
    TradeMap :=
  caps.foldl
    (fun tm cap => if odds < cap then tmAppend tm (cap, th) (res, odds) else tm) tm

/-- Middle loop `for threshold in DELTA_THRESHOLDS`. -/
def threshLoop (res : Bool) (odds absd : ℚ) (threshs : List ℕ) (tm : TradeMap) :
    TradeMap :=
  threshs.foldl
    (fun tm (th : ℕ) =>
      if absd < (th : ℚ) then tm else capLoop res odds th ODDS_CAPS tm) tm

/-- Outer loop body `for match in dataset` of the trade-sequence builder. -/
def tradeStep (tm : TradeMap) (m : ProjectedMatch) : TradeMap :=
  if m.delta = 0 then tm
  else
    threshLoop (decide (m.winner = predictedSide m.delta)) (predOdds m) |m.delta|
      DELTA_THRESHOLDS tm

def trade_map (ds : List ProjectedMatch) : TradeMap :=
  ds.foldl tradeStep (fun _ => [])

/-- Win/loss/streak counting loop of the martingale analysis:
`(wins, losses, current, max_streak)`. -/
def countStreaks (trades : List (Bool × ℚ)) : ℕ × ℕ × ℕ × ℕ :=
  trades.foldl
    (fun acc tr =>
      if tr.1 then (acc.1 + 1, acc.2.1, 0, acc.2.2.2)
      else (acc.1, acc.2.1 + 1, acc.2.2.1 + 1, max acc.2.2.2 (acc.2.2.1 + 1)))
    (0, 0, 0, 0)

def maxLossStreak (trades : List (Bool × ℚ)) : ℕ :=
  (countStreaks trades).2.2.2

/-- The sequential doubling simulation, returning `(final bank, bankrupt)`. -/
def martSim (base_bet : ℚ) : List (Bool × ℚ) → ℚ → ℚ → ℕ → ℚ × ℕ
  | [], bank, _, _ => (bank, 0)
  | (res, odds) :: rest, bank, stake, streak =>
    if stake > bank ∨ stake ≤ 0 then (bank, 1)
    else if res then martSim base_bet rest (bank + stake * (odds - 1)) base_bet 0
    else
      let bank' := bank - stake
      let streak' := streak + 1
      let stake' := base_bet * 2 ^ streak'
      if bank' ≤ 0 then (0, 1)
      else martSim base_bet rest bank' stake' streak'

structure MartRow where
  odds_cap : ℚ
  delta_threshold : ℕ
  total_trades : ℕ
  wins : ℕ
  losses : ℕ
  max_losing_streak : ℕ
  base_bet : ℕ
  final_bank : ℚ
  bankrupt : ℕ
deriving DecidableEq

/-- The martingale analysis of one `(odds_cap, threshold)` trade list.
The Python guards `if max_streak >= 0 else 1` and
`if required_bank else START_BANKROLL` are vacuously true here
(`max_streak : ℕ` and `required_bank = 2^(ms+1) - 1 ≥ 1`), so they are
resolved in the embedding. -/
def analyzeTrades (cap : ℚ) (thresh : ℕ) (trades : List (Bool × ℚ)) : MartRow :=
  if trades = [] then ⟨cap, thresh, 0, 0, 0, 0, 0, 1000, 0⟩
  else
    let s := countStreaks trades
    let ms := s.2.2.2
    let required_bank : ℕ := 2 ^ (ms + 1) - 1
    let base_bet : ℕ := 1000 / required_bank
    if base_bet < 1 then
      ⟨cap, thresh, trades.length, s.1, s.2.1, ms, 0, 1000, 1⟩
    else
      let r := martSim (base_bet : ℚ) trades 1000 (base_bet : ℚ) 0
      ⟨cap, thresh, trades.length, s.1, s.2.1, ms, base_bet, max r.1 0, r.2⟩

lemma tmAppend_apply (tm : TradeMap) (key k : ℚ × ℕ) (e : Bool × ℚ) :
    tmAppend tm key e k = tm k ++ (if k = key then [e] else []) := by
  unfold tmAppend
  split_ifs <;> simp

lemma capLoop_apply (res : Bool) (odds : ℚ) (th : ℕ) :
    ∀ (caps : List ℚ), caps.Nodup → ∀ (tm : TradeMap) (c : ℚ) (t : ℕ),
      capLoop res odds th caps tm (c, t) =
        tm (c, t) ++ (if t = th ∧ c ∈ caps ∧ odds < c then [(res, odds)] else []) := by
  intro caps
  induction caps with
  | nil =>
    intro _ tm c t
    simp [capLoop]
  | cons a caps ih =>
    intro hnd tm c t
    have hstep : capLoop res odds th (a :: caps) tm =
        capLoop res odds th caps
          (if odds < a then tmAppend tm (a, th) (res, odds) else tm) := by
      simp [capLoop]
    rw [hstep, ih (List.nodup_cons.mp hnd).2]
    have hbase :
        (if odds < a then tmAppend tm (a, th) (res, odds) else tm) (c, t) =
          tm (c, t) ++ (if ((c, t) : ℚ × ℕ) = (a, th) ∧ odds < a
            then [(res, odds)] else []) := by
      by_cases hlt : odds < a
      · rw [if_pos hlt, tmAppend_apply]
        by_cases he : ((c, t) : ℚ × ℕ) = (a, th)
        · rw [if_pos he, if_pos ⟨he, hlt⟩]
        · rw [if_neg he, if_neg (fun hh => he hh.1)]
      · rw [if_neg hlt, if_neg (fun hh => hlt hh.2), List.append_nil]
    rw [hbase, List.append_assoc]
    congr 1
    by_cases hca : c = a
    · subst hca
      by_cases hth : t = th
      · subst hth
        have hna : c ∉ caps := (List.nodup_cons.mp hnd).1
        by_cases hlt : odds < c
        · rw [if_pos ⟨rfl, hlt⟩, if_neg (fun hh => hna hh.2.1),
            if_pos ⟨rfl, List.mem_cons_self c caps, hlt⟩]
          simp
        · rw [if_neg (fun hh => hlt hh.2), if_neg (fun hh => hna hh.2.1),
            if_neg (fun hh => hlt hh.2.2)]
          simp
      · rw [if_neg (fun hh => hth (Prod.mk.injEq .. ▸ hh.1).2),
          if_neg (fun hh => hth hh.1), if_neg (fun hh => hth hh.1)]
        simp
    · have hkey : ((c, t) : ℚ × ℕ) ≠ (a, th) := fun hh => hca (congrArg Prod.fst hh)
      rw [if_neg (fun hh => hkey hh.1)]
      have hmem : (c ∈ a :: caps) ↔ (c ∈ caps) := by
        constructor
        · intro hh
          rcases List.mem_cons.mp hh with h' | h'
          · exact absurd h' hca
          · exact h'
        · exact fun hh => List.mem_cons_of_mem _ hh
      by_cases hrest : t = th ∧ c ∈ caps ∧ odds < c
      · rw [if_pos hrest, if_pos ⟨hrest.1, hmem.mpr hrest.2.1, hrest.2.2⟩]
        simp
      · rw [if_neg hrest, if_neg (fun hh => hrest ⟨hh.1, hmem.mp hh.2.1, hh.2.2⟩)]
        simp

lemma odds_caps_nodup : ODDS_CAPS.Nodup := by
  norm_num [ODDS_CAPS]

lemma threshLoop_apply (res : Bool) (odds absd : ℚ) :
    ∀ (threshs : List ℕ), threshs.Nodup → ∀ (tm : TradeMap) (c : ℚ) (t : ℕ),
      c ∈ ODDS_CAPS →
      threshLoop res odds absd threshs tm (c, t) =
        tm (c, t) ++
          (if t ∈ threshs ∧ ¬(absd < (t : ℚ)) ∧ odds < c
            then [(res, odds)] else []) := by
  intro threshs
  induction threshs with
  | nil =>
    intro _ tm c t _
    simp [threshLoop]
  | cons a threshs ih =>
    intro hnd tm c t hc
    have hstep : threshLoop res odds absd (a :: threshs) tm =
        threshLoop res odds absd threshs
          (if absd < (a : ℚ) then tm else capLoop res odds a ODDS_CAPS tm) := by
      simp [threshLoop]
    rw [hstep, ih (List.nodup_cons.mp hnd).2 _ c t hc]
    have hcapsnd : (ODDS_CAPS).Nodup := odds_caps_nodup
    have hbase :
        (if absd < (a : ℚ) then tm else capLoop res odds a ODDS_CAPS tm) (c, t) =
          tm (c, t) ++
            (if t = a ∧ ¬(absd < (a : ℚ)) ∧ odds < c then [(res, odds)] else []) := by
      by_cases hlt : absd < (a : ℚ)
      · rw [if_pos hlt, if_neg (fun hh => hh.2.1 hlt), List.append_nil]
      · rw [if_neg hlt, capLoop_apply res odds a ODDS_CAPS hcapsnd]
        congr 1
        by_cases hcond : t = a ∧ odds < c
        · rw [if_pos ⟨hcond.1, hc, hcond.2⟩, if_pos ⟨hcond.1, hlt, hcond.2⟩]
        · rw [if_neg (fun hh => hcond ⟨hh.1, hh.2.2⟩),
            if_neg (fun hh => hcond ⟨hh.1, hh.2.2⟩)]
    rw [hbase, List.append_assoc]
    congr 1
    by_cases hta : t = a
    · subst hta
      have hnt : t ∉ threshs := (List.nodup_cons.mp hnd).1
      by_cases hcond : ¬(absd < (t : ℚ)) ∧ odds < c
      · rw [if_pos ⟨rfl, hcond.1, hcond.2⟩, if_neg (fun hh => hnt hh.1),
          if_pos ⟨List.mem_cons_self t threshs, hcond.1, hcond.2⟩]
        simp
      · rw [if_neg (fun hh => hcond ⟨hh.2.1, hh.2.2⟩), if_neg (fun hh => hnt hh.1),
          if_neg (fun hh => hcond ⟨hh.2.1, hh.2.2⟩)]
        simp
    · rw [if_neg (fun hh => hta hh.1)]
      have hmem : t ∈ a :: threshs ↔ t ∈ threshs :=
        ⟨fun hh => (List.mem_cons.mp hh).resolve_left hta,
         fun hh => List.mem_cons_of_mem _ hh⟩
      by_cases hrest : t ∈ threshs ∧ ¬(absd < (t : ℚ)) ∧ odds < c
      · rw [if_pos hrest, if_pos ⟨hmem.mpr hrest.1, hrest.2⟩]
        simp
      · rw [if_neg hrest, if_neg (fun hh => hrest ⟨hmem.mp hh.1, hh.2⟩)]
        simp

/-- What one `tradeStep` appends to the `(c, t)` trade list, for a key on
the grids. -/
def eligTrade (c : ℚ) (t : ℕ) (m : ProjectedMatch) : List (Bool × ℚ) :=
  if m.delta ≠ 0 ∧ ¬(|m.delta| < (t : ℚ)) ∧ predOdds m < c
  then [(decide (m.winner = predictedSide m.delta), predOdds m)] else []

lemma tradeStep_apply (tm : TradeMap) (m : ProjectedMatch) (c : ℚ) (t : ℕ)
    (hc : c ∈ ODDS_CAPS) (ht : t ∈ DELTA_THRESHOLDS) :
    tradeStep tm m (c, t) = tm (c, t) ++ eligTrade c t m := by
  unfold tradeStep eligTrade
  by_cases hz : m.delta = 0
  · rw [if_pos hz, if_neg (fun hh => hh.1 hz), List.append_nil]
  · rw [if_neg hz,
      threshLoop_apply (decide (m.winner = predictedSide m.delta)) (predOdds m)
        |m.delta| DELTA_THRESHOLDS (by decide) tm c t hc]
    congr 1
    by_cases hcond : ¬(|m.delta| < (t : ℚ)) ∧ predOdds m < c
    · rw [if_pos ⟨ht, hcond.1, hcond.2⟩, if_pos ⟨hz, hcond.1, hcond.2⟩]
    · rw [if_neg (fun hh => hcond ⟨hh.2.1, hh.2.2⟩),
        if_neg (fun hh => hcond ⟨hh.2.1, hh.2.2⟩)]

lemma trade_map_foldl (c : ℚ) (t : ℕ) (hc : c ∈ ODDS_CAPS) (ht : t ∈ DELTA_THRESHOLDS) :
    ∀ (l : List ProjectedMatch) (tm : TradeMap),
      (l.foldl tradeStep tm) (c, t) = tm (c, t) ++ (l.map (eligTrade c t)).flatten := by
  intro l
  induction l with
  | nil => intro tm; simp
  | cons m l ih =>
    intro tm
    rw [List.foldl_cons, ih, tradeStep_apply tm m c t hc ht, List.map_cons,
      List.flatten_cons, List.append_assoc]

/-- The simulator's bet-eligibility of one match for `(cap, th)`:
`|delta| ≥ threshold` and predicted odds strictly below the cap. -/
def eligibleBet (cap : ℚ) (th : ℕ) (m : ProjectedMatch) :
    Option (ProjectedMatch × Team × ℚ) :=
  if (th : ℚ) ≤ |m.delta| ∧ predOdds m < cap
  then some (m, predictedSide m.delta, predOdds m) else none

lemma eligTrade_eq_eligibleBet (cap : ℚ) (th : ℕ) (ht : 1 ≤ (th : ℚ))
    (m : ProjectedMatch) :
    eligTrade cap th m =
      ((eligibleBet cap th m).map fun b =>
        (decide (b.1.winner = b.2.1), b.2.2)).toList := by
  unfold eligTrade eligibleBet
  by_cases hcond : (th : ℚ) ≤ |m.delta| ∧ predOdds m < cap
  · have hz : m.delta ≠ 0 := by
      intro h0
      rw [h0] at hcond
      simp at hcond
      rw [hcond.1] at ht
      norm_num at ht
    rw [if_pos ⟨hz, not_lt.mpr hcond.1, hcond.2⟩, if_pos hcond]
    rfl
  · rw [if_neg (fun hh => hcond ⟨not_lt.mp hh.2.1, hh.2.2⟩), if_neg hcond]
    rfl

lemma flatten_eligTrade (cap : ℚ) (th : ℕ) (ht : 1 ≤ (th : ℚ))
    (l : List ProjectedMatch) :
    (l.map (eligTrade cap th)).flatten =
      (l.filterMap (eligibleBet cap th)).map fun b =>
        (decide (b.1.winner = b.2.1), b.2.2) := by
  induction l with
  | nil => simp
  | cons m l ih =>
    rw [List.map_cons, List.flatten_cons, ih, List.filterMap_cons,
      eligTrade_eq_eligibleBet cap th ht m]
    cases eligibleBet cap th m with
    | none => simp
    | some b => simp

/-- **C7 (amended).** For grid parameters and a projected dataset whose
odds are all nonnegative, the flat-percentage simulator places bets on
exactly the matches of the martingale analyzer's trade list for the same
`(odds_cap, threshold)`, in the same order and with the same predicted side
and odds: the bet list is the order-preserving filter of the dataset by
`|delta| ≥ threshold ∧ predicted odds < cap`, and the trade list is its
image under `(won?, odds)`.  (Without the nonnegativity hypothesis the
equivalence fails: a won bet at negative odds drives the bankroll below
zero and the simulator's `stake <= 0` skip then drops matches the trade
list keeps.) -/
theorem sim_bets_eq_trade_list (ds : List ProjectedMatch) (pct cap : ℚ) (th : ℕ)
    (hpct : pct ∈ PERCENTS) (hcap : cap ∈ ODDS_CAPS) (hth : th ∈ DELTA_THRESHOLDS)
    (hodds : ∀ m ∈ ds, 0 ≤ m.odds_team1 ∧ 0 ≤ m.odds_team2) :
    (runSim ds pct cap th).betList = ds.filterMap (eligibleBet cap th) ∧
    trade_map ds (cap, th) =
      (ds.filterMap (eligibleBet cap th)).map fun b =>
        (decide (b.1.winner = b.2.1), b.2.2) := by
  have hp0 : 0 < pct := by fin_cases hpct <;> norm_num
  have hp1 : pct < 1 := by fin_cases hpct <;> norm_num
  have ht1 : 1 ≤ (th : ℚ) := by fin_cases hth <;> norm_num
  constructor
  · obtain ⟨_, _, c3, _⟩ :=
      runSim_char pct cap th hp0 hp1 ds initSim (by norm_num [initSim]) hodds
    unfold runSim
    rw [c3]
    rw [show initSim.betList = [] from rfl, List.nil_append]
    rfl
  · unfold trade_map
    rw [trade_map_foldl cap th hcap hth ds (fun _ => []),
      flatten_eligTrade cap th ht1]
    simp

/-- **C10 (amended).** For `0 < pct < 1` and a projected dataset whose
odds are all nonnegative, the running bankroll stays strictly positive
after every settled bet, the `stake <= 0` skip branch never executes, and
the pre-rounding final bankroll is strictly positive.  (As stated over
*every* projected dataset the claim is false: `safe_float` accepts negative
odds and a won bet at negative odds makes the bankroll negative.) -/
theorem bankroll_stays_positive (ds : List ProjectedMatch) (pct cap : ℚ) (th : ℕ)
    (hp0 : 0 < pct) (hp1 : pct < 1)
    (hodds : ∀ m ∈ ds, 0 ≤ m.odds_team1 ∧ 0 ≤ m.odds_team2) :
    0 < (runSim ds pct cap th).bankroll ∧
    (runSim ds pct cap th).zeroStakeSkips = 0 ∧
    ∀ b ∈ (runSim ds pct cap th).bankTrace, 0 < b := by
  obtain ⟨c1, c2, _, c4⟩ :=
    runSim_char pct cap th hp0 hp1 ds initSim (by norm_num [initSim]) hodds
  refine ⟨c1, by rw [show runSim ds pct cap th =
      ds.foldl (simStep pct cap th) initSim from rfl, c2]; rfl, ?_⟩
  intro b hb
  rcases c4 b (by rw [show ds.foldl (simStep pct cap th) initSim =
      runSim ds pct cap th from rfl]; exact hb) with h | h
  · rw [show initSim.bankTrace = [] from rfl] at h
    exact absurd h (List.not_mem_nil b)
  · exact h

/-- Witness of the amended C7 at a concrete input. -/
theorem sim_bets_eq_trade_list_witness :
    ((1/10 : ℚ) ∈ PERCENTS) ∧ ((19/10 : ℚ) ∈ ODDS_CAPS) ∧
    ((100 : ℕ) ∈ DELTA_THRESHOLDS) ∧
    (∀ m ∈ [(⟨120, 3/2, 2, .team1⟩ : ProjectedMatch)],
      0 ≤ m.odds_team1 ∧ 0 ≤ m.odds_team2) ∧
    ((runSim [(⟨120, 3/2, 2, .team1⟩ : ProjectedMatch)] (1/10) (19/10) 100).betList
        = [(⟨120, 3/2, 2, .team1⟩ : ProjectedMatch)].filterMap (eligibleBet (19/10) 100) ∧
     trade_map [(⟨120, 3/2, 2, .team1⟩ : ProjectedMatch)] ((19/10 : ℚ), (100 : ℕ)) =
       ([(⟨120, 3/2, 2, .team1⟩ : ProjectedMatch)].filterMap
          (eligibleBet (19/10) 100)).map fun b =>
            (decide (b.1.winner = b.2.1), b.2.2)) :=
  ⟨List.mem_cons_self _ _, List.mem_cons_self _ _,
   by decide,
   fun m hm => by rcases List.mem_singleton.mp hm with rfl; exact ⟨by norm_num, by norm_num⟩,
   sim_bets_eq_trade_list [⟨120, 3/2, 2, .team1⟩] (1/10) (19/10) 100
     (List.mem_cons_self _ _) (List.mem_cons_self _ _) (by decide)
     (fun m hm => by
       rcases List.mem_singleton.mp hm with rfl
       exact ⟨by norm_num, by norm_num⟩)⟩

/-- Witness of the amended C10 at a concrete input. -/
theorem bankroll_stays_positive_witness :
    ((0 : ℚ) < 1/2) ∧ ((1/2 : ℚ) < 1) ∧
    (∀ m ∈ [(⟨120, 3/2, 2, .team1⟩ : ProjectedMatch)],
      0 ≤ m.odds_team1 ∧ 0 ≤ m.odds_team2) ∧
    (0 < (runSim [(⟨120, 3/2, 2, .team1⟩ : ProjectedMatch)] (1/2) (19/10) 100).bankroll ∧
     (runSim [(⟨120, 3/2, 2, .team1⟩ : ProjectedMatch)] (1/2) (19/10) 100).zeroStakeSkips
        = 0 ∧
     ∀ b ∈ (runSim [(⟨120, 3/2, 2, .team1⟩ : ProjectedMatch)] (1/2) (19/10)
        100).bankTrace, 0 < b) :=
  ⟨by norm_num, by norm_num,
   fun m hm => by rcases List.mem_singleton.mp hm with rfl; exact ⟨by norm_num, by norm_num⟩,
   bankroll_stays_positive [⟨120, 3/2, 2, .team1⟩] (1/2) (19/10) 100
     (by norm_num) (by norm_num)
     (fun m hm => by
       rcases List.mem_singleton.mp hm with rfl
       exact ⟨by norm_num, by norm_num⟩)⟩

/-! ### The negative-odds divergence

`safe_float` parses any float literal, so a historical-wager row with a
negative odds column projects into the dataset unchanged.  On the dataset
below, the first (won) bet at odds `-2` drives the bankroll to `-500`; the
second match is then dropped by the simulator's `stake <= 0` branch but
kept by the martingale trade filter. -/

def negCS : CSData :=
  ⟨["a", "b", "c", "d", "e", "f", "g", "h", "i", "j"],
   [100, 100, 100, 100, 100, 0, 0, 0, 0, 0], []⟩

def negRow1 : WagerRow :=
  ⟨"T1", "T2", "a|b|c|d|e", "f|g|h|i|j", some (-2), some 2, "T1"⟩

def negRow2 : WagerRow :=
  ⟨"T1", "T2", "a|b|c|d|e", "f|g|h|i|j", some (3/2), some 2, "T1"⟩

def negM1 : ProjectedMatch := ⟨500, -2, 2, .team1⟩

def negM2 : ProjectedMatch := ⟨500, 3/2, 2, .team1⟩

lemma hero_adv_nil (idx : ℕ) (opps : List ℕ) :
    hero_adv ([] : List (List (Option LoadedCell))) idx opps = 0 := by
  rw [hero_adv_eq]
  have h : ∀ o : ℕ, advCellVal ([] : List (List (Option LoadedCell))) o idx = 0 :=
    fun o => rfl
  simp [h]

lemma negScore1 : teamScore negCS [0, 1, 2, 3, 4] [5, 6, 7, 8, 9] = 500 := by
  simp [teamScore, hero_adv_nil, negCS]
  norm_num

lemma negScore2 : teamScore negCS [5, 6, 7, 8, 9] [0, 1, 2, 3, 4] = 0 := by
  simp [teamScore, hero_adv_nil, negCS]

lemma negProject1 : projectRow negCS negRow1 = some negM1 := by
  simp only [projectRow]
  rw [if_neg (by decide)]
  rw [show resolveTeam negCS.heroes (cleanRoster negRow1.team1_heroes)
        = some [0, 1, 2, 3, 4] from by decide,
      show resolveTeam negCS.heroes (cleanRoster negRow1.team2_heroes)
        = some [5, 6, 7, 8, 9] from by decide]
  rw [show (if negRow1.winner = negRow1.team1 then some Team.team1
        else if negRow1.winner = negRow1.team2 then some Team.team2 else none)
      = some Team.team1 from by rw [if_pos (by decide)]]
  show some ⟨teamScore negCS [0, 1, 2, 3, 4] [5, 6, 7, 8, 9] -
      teamScore negCS [5, 6, 7, 8, 9] [0, 1, 2, 3, 4], -2, 2, Team.team1⟩ = some negM1
  rw [negScore1, negScore2]
  norm_num [negM1]

lemma negProject2 : projectRow negCS negRow2 = some negM2 := by
  simp only [projectRow]
  rw [if_neg (by decide)]
  rw [show resolveTeam negCS.heroes (cleanRoster negRow2.team1_heroes)
        = some [0, 1, 2, 3, 4] from by decide,
      show resolveTeam negCS.heroes (cleanRoster negRow2.team2_heroes)
        = some [5, 6, 7, 8, 9] from by decide]
  rw [show (if negRow2.winner = negRow2.team1 then some Team.team1
        else if negRow2.winner = negRow2.team2 then some Team.team2 else none)
      = some Team.team1 from by rw [if_pos (by decide)]]
  show some ⟨teamScore negCS [0, 1, 2, 3, 4] [5, 6, 7, 8, 9] -
      teamScore negCS [5, 6, 7, 8, 9] [0, 1, 2, 3, 4], 3/2, 2, Team.team1⟩ = some negM2
  rw [negScore1, negScore2]
  norm_num [negM2]

lemma negBuild : build_match_dataset negCS [negRow1, negRow2] = [negM1, negM2] := by
  unfold build_match_dataset
  rw [buildAux_eq]
  rw [List.filterMap_cons, negProject1, List.filterMap_cons, negProject2,
    List.filterMap_nil]
  rfl

/-- The simulator state after the first (won, odds `-2`) bet of the
negative-odds dataset. -/
def negSt1 : SimState :=
  ⟨-500, 500, 500, 1000, 1500, 1, 1, 0, [(negM1, .team1, -2)], [-500], 0⟩

lemma negAbs1 : |negM1.delta| = 500 := by
  rw [show negM1.delta = 500 from rfl]
  exact abs_of_pos (by norm_num)

lemma negAbs2 : |negM2.delta| = 500 := by
  rw [show negM2.delta = 500 from rfl]
  exact abs_of_pos (by norm_num)

lemma negPred1 : predictedSide negM1.delta = Team.team1 := by
  unfold predictedSide
  rw [if_pos (show negM1.delta > 0 from by norm_num [negM1])]

lemma negPred2 : predictedSide negM2.delta = Team.team1 := by
  unfold predictedSide
  rw [if_pos (show negM2.delta > 0 from by norm_num [negM2])]

lemma negPo1 : predOdds negM1 = -2 := by
  unfold predOdds
  rw [negPred1, if_pos rfl]
  rfl

lemma negPo2 : predOdds negM2 = 3/2 := by
  unfold predOdds
  rw [negPred2, if_pos rfl]
  rfl

lemma negStep1 : simStep (1/2) (19/10) 100 initSim negM1 = negSt1 := by
  have hst : (if initSim.bankroll * (1/2) > MAX_BET then MAX_BET
      else initSim.bankroll * (1/2)) = 500 := by
    rw [show initSim.bankroll = (1000 : ℚ) from rfl, if_neg (by norm_num [MAX_BET])]
    norm_num
  rw [simStep_bet_win (by rw [negAbs1]; norm_num) (by rw [negPo1]; norm_num)
    (by rw [hst]; norm_num) (by rw [negPred1]; rfl) _ rfl]
  rw [hst, negPo1, negPred1]
  norm_num [initSim, negSt1, SimState.mk.injEq, max_def]

lemma negStep2 : simStep (1/2) (19/10) 100 negSt1 negM2 =
    { negSt1 with zeroStakeSkips := negSt1.zeroStakeSkips + 1 } := by
  apply simStep_skip_stake
  · rw [negAbs2]; norm_num
  · rw [negPo2]; norm_num
  · rw [show negSt1.bankroll = (-500 : ℚ) from rfl, if_neg (by norm_num [MAX_BET])]
    norm_num

lemma negRun : runSim [negM1, negM2] (1/2) (19/10) 100 =
    { negSt1 with zeroStakeSkips := negSt1.zeroStakeSkips + 1 } := by
  unfold runSim
  rw [List.foldl_cons, negStep1, List.foldl_cons, negStep2, List.foldl_nil]

lemma negTrade1 : eligTrade (19/10) 100 negM1 = [(true, -2)] := by
  unfold eligTrade
  rw [if_pos ⟨by norm_num [negM1], by rw [negAbs1]; norm_num, by rw [negPo1]; norm_num⟩,
    negPred1, negPo1]
  norm_num [negM1]

lemma negTrade2 : eligTrade (19/10) 100 negM2 = [(true, 3/2)] := by
  unfold eligTrade
  rw [if_pos ⟨by norm_num [negM2], by rw [negAbs2]; norm_num, by rw [negPo2]; norm_num⟩,
    negPred2, negPo2]
  norm_num [negM2]

/-- Counterexample to **C7** as stated: on a projected dataset containing a
negative odds value (accepted by `safe_float`), with all parameters taken
from the configured grids, the simulator's bet sequence is *not* the
martingale trade list — the second match is skipped by the `stake <= 0`
branch after the first won bet at odds `-2` bankrupts the simulator, while
the trade list keeps it. -/
theorem sim_trade_divergence_counterexample :
    ((1/2 : ℚ) ∈ PERCENTS) ∧ ((19/10 : ℚ) ∈ ODDS_CAPS) ∧
    ((100 : ℕ) ∈ DELTA_THRESHOLDS) ∧
    build_match_dataset negCS [negRow1, negRow2] = [negM1, negM2] ∧
    (runSim [negM1, negM2] (1/2) (19/10) 100).betList.map
        (fun b => (decide (b.1.winner = b.2.1), b.2.2))
      ≠ trade_map [negM1, negM2] ((19/10 : ℚ), (100 : ℕ)) := by
  have htm : trade_map [negM1, negM2] ((19/10 : ℚ), (100 : ℕ))
      = [(true, -2), (true, 3/2)] := by
    unfold trade_map
    rw [trade_map_foldl (19/10) 100 (List.mem_cons_self _ _) (by decide)
      [negM1, negM2] (fun _ => [])]
    rw [List.map_cons, List.map_cons, List.map_nil, negTrade1, negTrade2]
    rfl
  refine ⟨by norm_num [PERCENTS], List.mem_cons_self _ _, by decide, negBuild, ?_⟩
  rw [negRun, htm]
  simp [negSt1, negM1]

/-- Counterexample to **C10** as stated: on the same dataset and grid
parameters the bankroll becomes negative after a settled bet, the
`stake <= 0` skip branch executes, and the pre-rounding final bankroll is
negative. -/
theorem bankroll_positive_counterexample :
    ((0 : ℚ) < 1/2) ∧ ((1/2 : ℚ) < 1) ∧
    build_match_dataset negCS [negRow1, negRow2] = [negM1, negM2] ∧
    (runSim [negM1, negM2] (1/2) (19/10) 100).zeroStakeSkips = 1 ∧
    (runSim [negM1, negM2] (1/2) (19/10) 100).bankroll < 0 ∧
    (-500 : ℚ) ∈ (runSim [negM1, negM2] (1/2) (19/10) 100).bankTrace := by
  refine ⟨by norm_num, by norm_num, negBuild, ?_, ?_, ?_⟩
  · rw [negRun]
    rfl
  · rw [negRun]
    norm_num [negSt1]
  · rw [negRun]
    exact List.mem_singleton.mpr rfl

/-! ### C5: the single-match example for the strategy simulator -/

/-- The example match of §8 of the spec: `delta = 120`,
`odds_team1 = 1.5`, winner `team1` (`odds_team2` arbitrary). -/
def c5m (o2 : ℚ) : ProjectedMatch := ⟨120, 3/2, o2, .team1⟩

lemma pyRoundTo4_half : pyRoundTo 4 (1/2 : ℚ) = 1/2 := by
  unfold pyRoundTo
  rw [rhe_eq_low ((1/2 : ℚ) * 10 ^ 4) 5000 (by norm_num) (by norm_num)]
  norm_num

lemma c5Pred (o2 : ℚ) : predictedSide (c5m o2).delta = Team.team1 := by
  unfold predictedSide
  rw [if_pos (show (c5m o2).delta > 0 from by norm_num [c5m])]

lemma c5Po (o2 : ℚ) : predOdds (c5m o2) = 3/2 := by
  unfold predOdds
  rw [c5Pred, if_pos rfl]
  rfl

lemma c5Abs (o2 : ℚ) : |(c5m o2).delta| = 120 := by
  rw [show (c5m o2).delta = 120 from rfl]
  exact abs_of_pos (by norm_num)

/-- **C5.** One match with `delta = 120`, `odds_team1 = 1.5`, winner
`team1`, simulated at any grid stake fraction with `odds_cap = 1.6` and
grid threshold `100` (position 1 of the threshold grid): exactly one bet is
placed, on `team1` at odds `1.5` with stake `1000*pct`; the reported final
bank is `round(1000 + stake*0.5)`, and the ROI is `0.5`. -/
theorem simulate_single_match (pct o2 : ℚ) (hpct : pct ∈ PERCENTS) :
    (simulate [c5m o2] pct (8/5))[1]? =
      some (finalizeSim 100 (runSim [c5m o2] pct (8/5) 100)) ∧
    (runSim [c5m o2] pct (8/5) 100).betList = [(c5m o2, Team.team1, 3/2)] ∧
    (finalizeSim 100 (runSim [c5m o2] pct (8/5) 100)).bets = 1 ∧
    (finalizeSim 100 (runSim [c5m o2] pct (8/5) 100)).wins = 1 ∧
    (finalizeSim 100 (runSim [c5m o2] pct (8/5) 100)).losses = 0 ∧
    (finalizeSim 100 (runSim [c5m o2] pct (8/5) 100)).final_bank
      = rhe (1000 + 1000 * pct * (1/2)) ∧
    (finalizeSim 100 (runSim [c5m o2] pct (8/5) 100)).total_staked
      = rhe (1000 * pct) ∧
    (finalizeSim 100 (runSim [c5m o2] pct (8/5) 100)).max_stake
      = rhe (1000 * pct) ∧
    (finalizeSim 100 (runSim [c5m o2] pct (8/5) 100)).roi = 1/2 := by
  have hp0 : 0 < pct := by fin_cases hpct <;> norm_num
  have hple : pct ≤ 1/2 := by fin_cases hpct <;> norm_num
  have hst : (if initSim.bankroll * pct > MAX_BET then MAX_BET
      else initSim.bankroll * pct) = 1000 * pct := by
    rw [show initSim.bankroll = (1000 : ℚ) from rfl,
      if_neg (by unfold MAX_BET; push_neg; nlinarith)]
  have hrun : runSim [c5m o2] pct (8/5) 100 = simStep pct (8/5) 100 initSim (c5m o2) :=
    rfl
  have hbet : simStep pct (8/5) 100 initSim (c5m o2) =
      { initSim with
        bets := initSim.bets + 1
        total_staked := initSim.total_staked + 1000 * pct
        max_stake := max initSim.max_stake (1000 * pct)
        betList := initSim.betList ++
          [(c5m o2, predictedSide (c5m o2).delta, predOdds (c5m o2))]
        wins := initSim.wins + 1
        bankroll := initSim.bankroll + 1000 * pct * (predOdds (c5m o2) - 1)
        peak := max initSim.peak
          (initSim.bankroll + 1000 * pct * (predOdds (c5m o2) - 1))
        max_drawdown := max initSim.max_drawdown
          (max initSim.peak (initSim.bankroll + 1000 * pct * (predOdds (c5m o2) - 1)) -
            (initSim.bankroll + 1000 * pct * (predOdds (c5m o2) - 1)))
        bankTrace := initSim.bankTrace ++
          [initSim.bankroll + 1000 * pct * (predOdds (c5m o2) - 1)] } := by
    rw [simStep_bet_win (by rw [c5Abs]; norm_num) (by rw [c5Po]; norm_num)
      (by rw [hst]; exact not_le.mpr (by positivity)) (by rw [c5Pred]; rfl) _ rfl, hst]
  have hbank : initSim.bankroll + 1000 * pct * (predOdds (c5m o2) - 1)
      = 1000 + 1000 * pct * (1/2) := by
    rw [c5Po, show initSim.bankroll = (1000 : ℚ) from rfl]
    ring
  have hts : initSim.total_staked + 1000 * pct = 1000 * pct := by
    rw [show initSim.total_staked = (0 : ℚ) from rfl, zero_add]
  have hms : max initSim.max_stake (1000 * pct) = 1000 * pct := by
    rw [show initSim.max_stake = (0 : ℚ) from rfl]
    exact max_eq_right (by positivity)
  refine ⟨?_, ?_, ?_, ?_, ?_, ?_, ?_, ?_, ?_⟩
  · rfl
  · rw [hrun, hbet]
    rw [show initSim.betList = ([] : List (ProjectedMatch × Team × ℚ)) from rfl,
      List.nil_append, c5Pred, c5Po]
  · rw [hrun, hbet]
    rfl
  · rw [hrun, hbet]
    rfl
  · rw [hrun, hbet]
    rfl
  · rw [hrun, hbet]
    show rhe (initSim.bankroll + 1000 * pct * (predOdds (c5m o2) - 1))
      = rhe (1000 + 1000 * pct * (1/2))
    rw [hbank]
  · rw [hrun, hbet]
    show rhe (initSim.total_staked + 1000 * pct) = rhe (1000 * pct)
    rw [hts]
  · rw [hrun, hbet]
    show rhe (max initSim.max_stake (1000 * pct)) = rhe (1000 * pct)
    rw [hms]
  · rw [hrun, hbet]
    have hts' : initSim.total_staked + 1000 * pct ≠ 0 := by
      rw [hts]
      positivity
    show pyRoundTo 4
        (if initSim.total_staked + 1000 * pct ≠ 0 then
          (initSim.bankroll + 1000 * pct * (predOdds (c5m o2) - 1) - START_BANKROLL) /
            (initSim.total_staked + 1000 * pct)
        else 0) = 1/2
    rw [if_pos hts']
    have hroi : (initSim.bankroll + 1000 * pct * (predOdds (c5m o2) - 1) - START_BANKROLL)
        / (initSim.total_staked + 1000 * pct) = 1/2 := by
      rw [hbank, hts, show START_BANKROLL = (1000 : ℚ) from rfl]
      field_simp
      ring
    rw [hroi, pyRoundTo4_half]

/-- Witness of C5 at `pct = 0.10`, `odds_team2 = 2`. -/
theorem simulate_single_match_witness :
    ((1/10 : ℚ) ∈ PERCENTS) ∧
    ((simulate [c5m 2] (1/10) (8/5))[1]? =
        some (finalizeSim 100 (runSim [c5m 2] (1/10) (8/5) 100)) ∧
     (runSim [c5m 2] (1/10) (8/5) 100).betList = [(c5m 2, Team.team1, 3/2)] ∧
     (finalizeSim 100 (runSim [c5m 2] (1/10) (8/5) 100)).bets = 1 ∧
     (finalizeSim 100 (runSim [c5m 2] (1/10) (8/5) 100)).wins = 1 ∧
     (finalizeSim 100 (runSim [c5m 2] (1/10) (8/5) 100)).losses = 0 ∧
     (finalizeSim 100 (runSim [c5m 2] (1/10) (8/5) 100)).final_bank
       = rhe (1000 + 1000 * (1/10) * (1/2)) ∧
     (finalizeSim 100 (runSim [c5m 2] (1/10) (8/5) 100)).total_staked
       = rhe (1000 * (1/10)) ∧
     (finalizeSim 100 (runSim [c5m 2] (1/10) (8/5) 100)).max_stake
       = rhe (1000 * (1/10)) ∧
     (finalizeSim 100 (runSim [c5m 2] (1/10) (8/5) 100)).roi = 1/2) :=
  ⟨List.mem_cons_self _ _, simulate_single_match (1/10) 2 (List.mem_cons_self _ _)⟩

/-- **C6.** For every nonempty trade list the analyzer's base bet is
`1000 / (2^(max_streak+1) - 1)` (integer division); when that quotient is
zero (`base_bet < 1`) the combination is reported bankrupt with
`base_bet = 0`, `final_bank = 1000`, `bankrupt = 1` and the sequential
simulation untouched; and `max_streak = 3` gives `required_bank = 15`,
`base_bet = 66`. -/
theorem martingale_sizing (cap : ℚ) (thresh : ℕ) (trades : List (Bool × ℚ))
    (hne : trades ≠ []) :
    (analyzeTrades cap thresh trades).base_bet
        = 1000 / (2 ^ (maxLossStreak trades + 1) - 1) ∧
    (1000 / (2 ^ (maxLossStreak trades + 1) - 1) = 0 →
      analyzeTrades cap thresh trades =
        ⟨cap, thresh, trades.length, (countStreaks trades).1,
         (countStreaks trades).2.1, maxLossStreak trades, 0, 1000, 1⟩) ∧
    (maxLossStreak trades = 3 →
      2 ^ (maxLossStreak trades + 1) - 1 = 15 ∧
      (analyzeTrades cap thresh trades).base_bet = 66) := by
  have hbase : (analyzeTrades cap thresh trades).base_bet
      = 1000 / (2 ^ (maxLossStreak trades + 1) - 1) := by
    unfold analyzeTrades maxLossStreak
    rw [if_neg hne]
    by_cases hb : 1000 / (2 ^ ((countStreaks trades).2.2.2 + 1) - 1) < 1
    · rw [if_pos hb]
      show (0 : ℕ) = 1000 / (2 ^ ((countStreaks trades).2.2.2 + 1) - 1)
      exact (Nat.lt_one_iff.mp hb).symm
    · rw [if_neg hb]
  refine ⟨hbase, ?_, ?_⟩
  · intro h0
    unfold analyzeTrades maxLossStreak
    rw [if_neg hne]
    rw [if_pos (by unfold maxLossStreak at h0; omega)]
  · intro h3
    refine ⟨by rw [h3]; decide, ?_⟩
    rw [hbase, h3]
    decide

/-- Witness of C6: three straight losses then a win (`max_streak = 3`). -/
theorem martingale_sizing_witness :
    ([(false, (2 : ℚ)), (false, 2), (false, 2), (true, 2)] ≠
        ([] : List (Bool × ℚ))) ∧
    maxLossStreak [(false, (2 : ℚ)), (false, 2), (false, 2), (true, 2)] = 3 ∧
    ((analyzeTrades (19/10) 100
        [(false, (2 : ℚ)), (false, 2), (false, 2), (true, 2)]).base_bet
      = 1000 / (2 ^ (maxLossStreak
          [(false, (2 : ℚ)), (false, 2), (false, 2), (true, 2)] + 1) - 1) ∧
     (1000 / (2 ^ (maxLossStreak
          [(false, (2 : ℚ)), (false, 2), (false, 2), (true, 2)] + 1) - 1) = 0 →
       analyzeTrades (19/10) 100
          [(false, (2 : ℚ)), (false, 2), (false, 2), (true, 2)] =
         ⟨19/10, 100, 4,
          (countStreaks [(false, (2 : ℚ)), (false, 2), (false, 2), (true, 2)]).1,
          (countStreaks [(false, (2 : ℚ)), (false, 2), (false, 2), (true, 2)]).2.1,
          maxLossStreak [(false, (2 : ℚ)), (false, 2), (false, 2), (true, 2)],
          0, 1000, 1⟩) ∧
     (maxLossStreak [(false, (2 : ℚ)), (false, 2), (false, 2), (true, 2)] = 3 →
       2 ^ (maxLossStreak
          [(false, (2 : ℚ)), (false, 2), (false, 2), (true, 2)] + 1) - 1 = 15 ∧
       (analyzeTrades (19/10) 100
          [(false, (2 : ℚ)), (false, 2), (false, 2), (true, 2)]).base_bet = 66)) :=
  ⟨by simp, by decide,
    martingale_sizing (19/10) 100 [(false, 2), (false, 2), (false, 2), (true, 2)]
      (by simp)⟩

/-! ## The hero-map completeness gate (`main` in `generate_cs_matrix.py`)

`set(hero_map.values()) != set(range(num_heroes))` raises before any match
is read; the error lists `sorted(set(range(num_heroes)) - set(values))`. -/

/-- The gate: `some missing` when the value set differs from `[0, n)`. -/
def checkHeroMap (values : List ℤ) (n : ℕ) : Option (List ℕ) :=
  if (∀ k < n, (k : ℤ) ∈ values) ∧ (∀ v ∈ values, 0 ≤ v ∧ v < (n : ℤ)) then none
  else some ((List.range n).filter fun (k : ℕ) => decide (¬((k : ℤ) ∈ values)))

/-- The generator pipeline around the gate: check the hero map first, then
ingest the matches. -/
def generateMatrixMain (rawMap : List (ℤ × ℤ)) (n : ℕ) (recs : List MatchRecord) :
    Except (List ℕ) IngestState :=
  match checkHeroMap (rawMap.map Prod.snd) n with
  | some missing => .error missing
  | none => .ok (process_matches (rawMap.map fun p => (p.1, p.2.toNat)) recs)

/-- **C8 (amended).** Matrix generation fails before ingesting any match iff
the value set of the hero map differs from `[0, N)` — that is, iff the map
is not surjective onto `[0, N)` *or* some mapped index lies outside
`[0, N)`; the error lists exactly the missing indices (in increasing
order), and a failing outcome does not depend on the match records. -/
theorem hero_map_check_iff (rawMap : List (ℤ × ℤ)) (n : ℕ) (recs : List MatchRecord) :
    ((∃ missing, generateMatrixMain rawMap n recs = .error missing) ↔
      ¬((∀ k < n, (k : ℤ) ∈ rawMap.map Prod.snd) ∧
        (∀ v ∈ rawMap.map Prod.snd, 0 ≤ v ∧ v < (n : ℤ)))) ∧
    (∀ missing, generateMatrixMain rawMap n recs = .error missing →
      missing = (List.range n).filter fun (k : ℕ) =>
        decide (¬((k : ℤ) ∈ rawMap.map Prod.snd))) ∧
    (∀ (recs' : List MatchRecord) (missing : List ℕ),
      generateMatrixMain rawMap n recs = .error missing →
      generateMatrixMain rawMap n recs' = .error missing) := by
  unfold generateMatrixMain checkHeroMap
  by_cases hcond : (∀ k < n, (k : ℤ) ∈ rawMap.map Prod.snd) ∧
      (∀ v ∈ rawMap.map Prod.snd, 0 ≤ v ∧ v < (n : ℤ))
  · rw [if_pos hcond]
    refine ⟨⟨fun ⟨missing, hmiss⟩ => Except.noConfusion hmiss,
      fun hn => absurd hcond hn⟩, ?_, ?_⟩
    · intro missing hmiss
      exact Except.noConfusion hmiss
    · intro recs' missing hmiss
      exact Except.noConfusion hmiss
  · rw [if_neg hcond]
    refine ⟨⟨fun _ => hcond, fun _ => ⟨_, rfl⟩⟩, ?_, ?_⟩
    · intro missing hmiss
      cases hmiss
      rfl
    · intro recs' missing hmiss
      exact hmiss

/-- Witness of the amended C8 at a concrete input. -/
theorem hero_map_check_iff_witness :
    ((∃ missing, generateMatrixMain [((7 : ℤ), (0 : ℤ))] 1 [] = .error missing) ↔
      ¬((∀ k : ℕ, k < 1 →
          (k : ℤ) ∈ ([((7 : ℤ), (0 : ℤ))] : List (ℤ × ℤ)).map Prod.snd) ∧
        (∀ v ∈ ([((7 : ℤ), (0 : ℤ))] : List (ℤ × ℤ)).map Prod.snd,
          0 ≤ v ∧ v < ((1 : ℕ) : ℤ)))) ∧
    (∀ missing, generateMatrixMain [((7 : ℤ), (0 : ℤ))] 1 [] = .error missing →
      missing = (List.range 1).filter fun (k : ℕ) =>
        decide (¬((k : ℤ) ∈ ([((7 : ℤ), (0 : ℤ))] : List (ℤ × ℤ)).map Prod.snd))) ∧
    (∀ (recs' : List MatchRecord) (missing : List ℕ),
      generateMatrixMain [((7 : ℤ), (0 : ℤ))] 1 [] = .error missing →
      generateMatrixMain [((7 : ℤ), (0 : ℤ))] 1 recs' = .error missing) :=
  hero_map_check_iff [((7 : ℤ), (0 : ℤ))] 1 []

/-- Counterexample to **C8** as stated: the map `{7 ↦ 0, 8 ↦ 5}` is
surjective onto `[0, 1)` (index 0 has a preimage), yet generation fails —
with an *empty* list of missing indices — because the out-of-range value 5
makes the two sets differ.  Failure is therefore not equivalent to
non-surjectivity. -/
theorem hero_map_check_counterexample :
    (∀ k : ℕ, k < 1 → (k : ℤ) ∈ ([((7 : ℤ), (0 : ℤ)), (8, 5)] : List (ℤ × ℤ)).map Prod.snd) ∧
    generateMatrixMain [((7 : ℤ), (0 : ℤ)), (8, 5)] 1 [] = .error [] :=
  ⟨by decide, rfl⟩

/-! ## Published-matrix serialization (`write_output` in
`generate_cs_matrix.py`)

`json.dumps` is modelled for the shapes that occur: string lists with the
default `", "` separator and minimal escaping, float lists rendered at the
2-decimal precision the pipeline produces, and the `win_rates` matrix with
the compact `(',', ':')` separators.  `update_time` is
`datetime.date.today().isoformat()` in `main`, modelled as an explicit
input — the published text embeds it verbatim in its last line. -/

def jsonEscape (s : String) : String :=
  String.mk (s.data.foldr
    (fun c acc =>
      if c = '\\' then '\\' :: '\\' :: acc
      else if c = '"' then '\\' :: '"' :: acc
      else c :: acc)
    [])

def jsonStr (s : String) : String := "\"" ++ jsonEscape s ++ "\""

def jsonStrList (l : List String) : String :=
  "[" ++ String.intercalate ", " (l.map jsonStr) ++ "]"

/-- Rendering of a (2-decimal) float value as Python's `repr` shows it:
integral values as `k.0`, one trailing zero stripped. -/
def renderFloat2 (q : ℚ) : String :=
  let n := rhe (q * 100)
  let sign := if n < 0 then "-" else ""
  let a := n.natAbs
  let frac := a % 100
  sign ++ toString (a / 100) ++
    (if frac = 0 then ".0"
     else if frac % 10 = 0 then "." ++ toString (frac / 10)
     else "." ++ (if frac < 10 then "0" else "") ++ toString frac)

def jsonFloatList (l : List ℚ) : String :=
  "[" ++ String.intercalate ", " (l.map renderFloat2) ++ "]"

def cellJson : Option (String × String × ℕ) → String
  | none => "null"
  | some (a, w, n) =>
    "[" ++ jsonStr a ++ "," ++ jsonStr w ++ "," ++ toString n ++ "]"

def rowJson (row : List (Option (String × String × ℕ))) : String :=
  "[" ++ String.intercalate "," (row.map cellJson) ++ "]"

def winRatesJson (mtx : List (List (Option (String × String × ℕ)))) : String :=
  "[" ++ String.intercalate "," (mtx.map rowJson) ++ "]"

/-- `write_output`: the published assignment-script text. -/
def write_output (heroes heroes_bg heroes_wr : List String)
    (additional : List (String × List ℚ))
    (win_rates : List (List (Option (String × String × ℕ))))
    (update_time : String) : String :=
  String.intercalate "\n"
    (["var heroes = " ++ jsonStrList heroes ++ ";",
      "var heroes_bg = " ++ jsonStrList heroes_bg ++ ";",
      "var heroes_wr = " ++ jsonStrList heroes_wr ++ ";"]
      ++ additional.map (fun p => "var " ++ p.1 ++ " = " ++ jsonFloatList p.2 ++ ";")
      ++ ["var win_rates = " ++ winRatesJson win_rates ++ ";",
          "var update_time = \"" ++ update_time ++ "\";"]) ++ "\n"

/-- **C9 (amended).** Two runs of the matrix builder on identical counters,
identical hero ordering/background/metric data, identical `min_sample`
*and identical `update_time`* produce byte-identical published text: the
serialization is a pure function of these inputs.  (The run date must be
added to the claim's inputs: `main` embeds `date.today()` in the output.) -/
theorem write_output_deterministic
    (heroes1 heroes2 bg1 bg2 wr1 wr2 : List String)
    (add1 add2 : List (String × List ℚ))
    (pm1 pm2 pw1 pw2 : ℕ → ℕ → ℕ) (ms1 ms2 : ℤ) (n1 n2 : ℕ) (u1 u2 : String)
    (hh : heroes1 = heroes2) (hbg : bg1 = bg2) (hwr : wr1 = wr2)
    (hadd : add1 = add2) (hpm : pm1 = pm2) (hpw : pw1 = pw2)
    (hms : ms1 = ms2) (hn : n1 = n2) (hu : u1 = u2) :
    write_output heroes1 bg1 wr1 add1 (build_win_rates pm1 pw1 ms1 n1) u1 =
      write_output heroes2 bg2 wr2 add2 (build_win_rates pm2 pw2 ms2 n2) u2 := by
  subst hh
  subst hbg
  subst hwr
  subst hadd
  subst hpm
  subst hpw
  subst hms
  subst hn
  subst hu
  rfl

/-- Witness of the amended C9 at a concrete input. -/
theorem write_output_deterministic_witness :
    (["x"] : List String) = ["x"] ∧
    write_output ["x"] ["bgx"] ["50.00"] []
        (build_win_rates (fun _ _ => 0) (fun _ _ => 0) 5 1) "2025-01-01" =
      write_output ["x"] ["bgx"] ["50.00"] []
        (build_win_rates (fun _ _ => 0) (fun _ _ => 0) 5 1) "2025-01-01" :=
  ⟨rfl,
    write_output_deterministic ["x"] ["x"] ["bgx"] ["bgx"] ["50.00"] ["50.00"] [] []
      (fun _ _ => 0) (fun _ _ => 0) (fun _ _ => 0) (fun _ _ => 0) 5 5 1 1
      "2025-01-01" "2025-01-01" rfl rfl rfl rfl rfl rfl rfl rfl rfl⟩

/-- Counterexample to **C9** as stated: with identical counters, template
data and threshold but runs on different days, the published texts differ —
`update_time = date.today()` is embedded in the output, and the claim's
input list does not fix it. -/
theorem write_output_time_counterexample :
    write_output ["x"] ["bgx"] ["50.00"] []
        (build_win_rates (fun _ _ => 0) (fun _ _ => 0) 5 1) "2025-01-01" ≠
      write_output ["x"] ["bgx"] ["50.00"] []
        (build_win_rates (fun _ _ => 0) (fun _ _ => 0) 5 1) "2025-01-02" := by
  decide

end CsMatrix
